import Mathlib

/-!
# Real-time weather monitoring: the aggregation and alerting logic of `src/App.js`

A shallow embedding of the functions of the `App` component that carry logic
(`processForecast`, `processDailySummary`, `calculateDominantCondition`,
`checkForAlerts`, `fetchWeatherData` and the effect that schedules it), followed by
theorems about them.

JavaScript numbers are embedded as exact rationals. React state is embedded as an explicit
record (`AppState`) that each function takes and returns; a `setX(v)` call is the update of
field `X`.
-/

namespace WeatherMonitor

/-! ## JSON values of the forecast payload -/

/-- A JavaScript value as it comes out of a parsed JSON payload; `undefined` is what reading an
absent property gives. An object is the list of its own properties in insertion order, the
first entry of a name being the one a read finds. -/
inductive JSVal where
  | undefined : JSVal
  | null : JSVal
  | bool (b : Bool) : JSVal
  | num (q : ℚ) : JSVal
  | str (s : String) : JSVal
  | obj (fields : List (String × JSVal)) : JSVal
  | arr (items : List JSVal) : JSVal

/-- The exceptions the embedded code can throw. -/
inductive JSError where
  | typeError : JSError
  | rangeError : JSError
  deriving DecidableEq, Repr

/-- Property read `v.k`, for the property names this program reads (`dt`, `main`, `temp`,
`feels_like`, `humidity`, `wind`, `speed`, `weather`, `city`, `name`, `list`), none of which a
primitive or an array defines: reading from `undefined` or `null` throws a `TypeError`, an
object gives its property or `undefined`, everything else gives `undefined`. -/
def JSVal.get (v : JSVal) (k : String) : Except JSError JSVal :=
  match v with
  | .undefined => .error .typeError
  | .null => .error .typeError
  | .obj fields => .ok ((fields.lookup k).getD .undefined)
  | _ => .ok .undefined

/-- Element read `v[0]`: the first element of an array, the first character of a string (of
the Basic Multilingual Plane), the property `"0"` of an object; a `TypeError` on `undefined`
and `null`. -/
def JSVal.first (v : JSVal) : Except JSError JSVal :=
  match v with
  | .undefined => .error .typeError
  | .null => .error .typeError
  | .arr items => .ok (items.head?.getD .undefined)
  | .str s => .ok (match s.data with
      | [] => .undefined
      | c :: _ => .str (String.mk [c]))
  | .obj fields => .ok ((fields.lookup "0").getD .undefined)
  | _ => .ok .undefined

/-- The object literal `processForecast` stores for a day. -/
def forecastDay (temp feels_like humidity wind_speed main dt : JSVal) : JSVal :=
  .obj [("temp", temp), ("feels_like", feels_like), ("humidity", humidity),
        ("wind_speed", wind_speed), ("main", main), ("dt", dt)]

/-- The object literal of `processForecast` (App.js lines 95-102), its property reads in source
order. -/
def projectSample (forecast : JSVal) : Except JSError JSVal := do
  let temp ← (← forecast.get "main").get "temp"
  let feels_like ← (← forecast.get "main").get "feels_like"
  let humidity ← (← forecast.get "main").get "humidity"
  let wind_speed ← (← forecast.get "wind").get "speed"
  let main ← (← (← forecast.get "weather").first).get "main"
  let dt ← forecast.get "dt"
  pure (forecastDay temp feels_like humidity wind_speed main dt)

/-- The callback of `forecastList.forEach` (App.js lines 92-104). `dailyForecast` is the list
of its properties in insertion order; `toLocaleDateString` stands for
`v => new Date(v * 1000).toLocaleDateString()`, a function of the host's locale and time zone.
Every stored value is an object, hence truthy, so `!dailyForecast[date]` holds exactly when
`date` is not yet a property, a date string not being the name of a member of
`Object.prototype`. -/
def forEachForecast {κ : Type} [DecidableEq κ] (toLocaleDateString : JSVal → κ)
    (dailyForecast : List (κ × JSVal)) (forecast : JSVal) : Except JSError (List (κ × JSVal)) := do
  let date := toLocaleDateString (← forecast.get "dt")
  if (dailyForecast.lookup date).isNone then
    let day ← projectSample forecast
    pure (dailyForecast ++ [(date, day)])
  else
    pure dailyForecast

/-- The loop `forecastList.forEach(...)` over the elements of the array, from the left. -/
def forEachLoop {κ : Type} [DecidableEq κ] (toLocaleDateString : JSVal → κ) :
    List JSVal → List (κ × JSVal) → Except JSError (List (κ × JSVal))
  | [], dailyForecast => .ok dailyForecast
  | forecast :: rest, dailyForecast =>
    match forEachForecast toLocaleDateString dailyForecast forecast with
    | .error e => .error e
    | .ok dailyForecast1 => forEachLoop toLocaleDateString rest dailyForecast1

/-- `processForecast` (App.js lines 89-107). Calling `.forEach` on anything but an array throws
a `TypeError`. `Object.values` lists the stored days in insertion order, a date string never
being an integer index. -/
def processForecast {κ : Type} [DecidableEq κ] (toLocaleDateString : JSVal → κ)
    (forecastList : JSVal) : Except JSError (List JSVal) :=
  match forecastList with
  | .arr items =>
    match forEachLoop toLocaleDateString items [] with
    | .error e => .error e
    | .ok dailyForecast => .ok (dailyForecast.map Prod.snd)
  | _ => .error .typeError

/-! ### What the claims about the Forecast Reducer speak of -/

/-- Total property read, `undefined` where `JSVal.get` throws: used to name the field values of
a well-formed sample. -/
def JSVal.prop (v : JSVal) (k : String) : JSVal :=
  match v with
  | .obj fields => (fields.lookup k).getD .undefined
  | _ => .undefined

/-- A raw forecast sample with a non-empty weather array: an object whose `main` and `wind`
are objects and whose `weather` is an array that starts with an object. -/
def isRawSample (s : JSVal) : Bool :=
  match s with
  | .obj fields =>
    (match fields.lookup "main" with
      | some (.obj _) => true
      | _ => false) &&
    (match fields.lookup "wind" with
      | some (.obj _) => true
      | _ => false) &&
    (match fields.lookup "weather" with
      | some (.arr (.obj _ :: _)) => true
      | _ => false)
  | _ => false

/-- The first element of the weather array of a sample. -/
def weatherHead (s : JSVal) : JSVal :=
  match s.prop "weather" with
  | .arr (w :: _) => w
  | _ => .undefined

/-- The projection of a sample to `{temp, feels_like, humidity, wind_speed, main, dt}`. -/
def projection (s : JSVal) : JSVal :=
  forecastDay ((s.prop "main").prop "temp") ((s.prop "main").prop "feels_like")
    ((s.prop "main").prop "humidity") ((s.prop "wind").prop "speed")
    ((weatherHead s).prop "main") (s.prop "dt")

/-- The samples that are the first of the list to bear their calendar date, in list order;
`seen` holds the dates of the samples before. -/
def firstOfDateAux {κ : Type} [DecidableEq κ] (date : JSVal → κ) : List κ → List JSVal → List JSVal
  | _, [] => []
  | seen, s :: rest =>
    if date s ∈ seen then firstOfDateAux date seen rest
    else s :: firstOfDateAux date (date s :: seen) rest

/-- The samples that are the first of the list to bear their calendar date. -/
def firstOfDate {κ : Type} [DecidableEq κ] (date : JSVal → κ) (samples : List JSVal) : List JSVal :=
  firstOfDateAux date [] samples

/-- The calendar date of a value as the host renders it, for a sample or a stored day: the date
function applied to its `dt`. -/
def dateOfDt {κ : Type} (toLocaleDateString : JSVal → κ) (s : JSVal) : κ :=
  toLocaleDateString (s.prop "dt")

/-- A date function for concrete runs: a host in UTC, the date of a numeric `dt` being its day
number since 1970-01-01 and every other value sharing one date. -/
def utcDayOfDt : JSVal → Option Int
  | .num q => some (⌊q⌋ / 86400)
  | _ => none

/-- A raw forecast sample. -/
def rawSample (dt : Int) (temp feels_like humidity speed : ℚ) (label : String) : JSVal :=
  .obj [("dt", .num dt),
        ("main", .obj [("temp", .num temp), ("feels_like", .num feels_like),
                       ("humidity", .num humidity)]),
        ("weather", .arr [.obj [("main", .str label)]]),
        ("wind", .obj [("speed", .num speed)])]

/-! ## Readings, breach counters and alerts -/

/-- An entry of `weatherData` (App.js lines 56-64). The name, the condition label and the
temperature, which the program computes with, are present; the values it only passes on, and
the timestamp, can be absent from the payload (`none` is `undefined`). -/
structure CityReading where
  city : String
  main : String
  temp : ℚ
  feels_like : Option ℚ
  humidity : Option ℚ
  wind_speed : Option ℚ
  timestamp : Option Int
  deriving DecidableEq

/-- An element of `newAlerts` (App.js lines 165-169). -/
structure Alert where
  city : String
  temp : ℚ
  condition : String
  deriving DecidableEq

/-- The object `consecutiveBreaches`: its own properties in insertion order, city names not
being names of members of `Object.prototype`. -/
abbrev BreachState := List (String × Nat)

/-- Read `breaches[city]`; `none` is `undefined`. -/
def BreachState.read (breaches : BreachState) (city : String) : Option Nat :=
  breaches.lookup city

/-- Assignment `breaches[city] = n`: an existing property keeps its place, a new one goes last. -/
def BreachState.assign (breaches : BreachState) (city : String) (n : Nat) : BreachState :=
  if (breaches.lookup city).isSome then
    breaches.map (fun p => if p.1 = city then (p.1, n) else p)
  else breaches ++ [(city, n)]

/-- The constant `alertThreshold` (App.js line 35). -/
def alertThreshold : ℚ := 25

/-- The summary object of `setDailySummary` (App.js lines 122-127); `dominantCondition` is
`none` where `pop()` gives `undefined`. -/
structure DailySummary where
  avgTemp : ℚ
  maxTemp : ℚ
  minTemp : ℚ
  dominantCondition : Option String
  deriving DecidableEq

/-- An element of `forecastData` (App.js lines 66-69). -/
structure CityForecast where
  city : JSVal
  forecast : List JSVal

/-- The state of the `App` component (App.js lines 28-34). `dailySummary` is `none` for the
initial `{}`; `snackbarMessage` holds the alert the message text is formatted from. -/
structure AppState where
  weatherData : List CityReading
  forecastData : List CityForecast
  dailySummary : Option DailySummary
  alerts : List Alert
  consecutiveBreaches : BreachState
  snackbarOpen : Bool
  snackbarMessage : Option Alert

/-- The state of the first render. -/
def initialState : AppState :=
  { weatherData := [], forecastData := [], dailySummary := none, alerts := [],
    consecutiveBreaches := [], snackbarOpen := false, snackbarMessage := none }

/-- The locals of `checkForAlerts` while its loop runs, with the state its setters write. -/
structure AlertLoop where
  newAlerts : List Alert
  breaches : BreachState
  snackbarOpen : Bool
  snackbarMessage : Option Alert

/-- The callback of `data.forEach` in `checkForAlerts` (App.js lines 150-175). `!breaches[city]`
holds when the property is absent or `0`. -/
def checkEntry (loop : AlertLoop) (entry : CityReading) : AlertLoop :=
  let city := entry.city
  let temp := entry.temp
  let b0 := if (loop.breaches.read city).getD 0 = 0 then loop.breaches.assign city 0
    else loop.breaches
  let b1 := if temp > alertThreshold then b0.assign city ((b0.read city).getD 0 + 1)
    else b0.assign city 0
  if (b1.read city).getD 0 ≥ 2 then
    { newAlerts := loop.newAlerts ++ [{ city := city, temp := temp, condition := entry.main }],
      breaches := b1,
      snackbarOpen := true,
      snackbarMessage := some { city := city, temp := temp, condition := entry.main } }
  else { loop with breaches := b1 }

/-- `checkForAlerts` (App.js lines 146-179). `consecutiveBreaches` is the variable of the
enclosing render that the function closes over; `st` is the state its setters write to. -/
def checkForAlerts (consecutiveBreaches : BreachState) (data : List CityReading)
    (st : AppState) : AppState :=
  let loop := data.foldl checkEntry
    { newAlerts := [], breaches := consecutiveBreaches,
      snackbarOpen := st.snackbarOpen, snackbarMessage := st.snackbarMessage }
  { st with alerts := loop.newAlerts, consecutiveBreaches := loop.breaches,
            snackbarOpen := loop.snackbarOpen, snackbarMessage := loop.snackbarMessage }

/-- A reading of the scenario of the specification: a city and its temperature. -/
def reading (city : String) (temp : ℚ) : CityReading :=
  { city := city, main := "Clear", temp := temp, feels_like := none, humidity := none,
    wind_speed := none, timestamp := none }

/-- The alert a reading gives rise to. -/
def alertOf (entry : CityReading) : Alert :=
  { city := entry.city, temp := entry.temp, condition := entry.main }

/-! ## Calendar dates -/

/-- The proleptic Gregorian date (year, month, day) of a day number counted from 1970-01-01,
as `Date` computes it. -/
def civilFromDays (days : Int) : Int × Int × Int :=
  let z := days + 719468
  let era := z / 146097
  let doe := z % 146097
  let yoe := (doe - doe / 1460 + doe / 36524 - doe / 146096) / 365
  let doy := doe - (365 * yoe + yoe / 4 - yoe / 100)
  let mp := (5 * doy + 2) / 153
  let d := doy - (153 * mp + 2) / 5 + 1
  let m := if mp < 10 then mp + 3 else mp - 9
  (if m ≤ 2 then yoe + era * 400 + 1 else yoe + era * 400, m, d)

/-- The decimal digit character of the units of `n`. -/
def digitChar (n : Int) : Char := Char.ofNat (48 + (n % 10).toNat)

/-- Two decimal digits. -/
def pad2 (n : Int) : List Char := [digitChar (n / 10), digitChar n]

/-- Four decimal digits. -/
def pad4 (n : Int) : List Char := pad2 (n / 100) ++ pad2 n

/-- Six decimal digits. -/
def pad6 (n : Int) : List Char := pad2 (n / 10000) ++ pad4 n

/-- The string `new Date(ms).toISOString().slice(0, 10)` of a valid time value: `YYYY-MM-DD`
for the years 0 to 9999, and the first ten characters of the expanded form `±YYYYYY-MM-DD`
for the others. -/
def isoDate (ms : Int) : String :=
  let (y, m, d) := civilFromDays (ms / 86400000)
  if 0 ≤ y ∧ y ≤ 9999 then String.mk (pad4 y ++ '-' :: pad2 m ++ '-' :: pad2 d)
  else String.mk ((if y < 0 then '-' else '+') :: pad6 (|y|) ++ '-' :: pad2 m)

/-- The string `new Date(entry.timestamp * 1000).toISOString().slice(0, 10)`: `toISOString`
throws a `RangeError` on an invalid date, which is what an absent timestamp (`undefined * 1000`
is `NaN`) and a time value beyond 8.64e15 ms give. -/
def entryIsoDate (timestamp : Option Int) : Except JSError String :=
  match timestamp with
  | none => .error .rangeError
  | some t =>
    if (t * 1000).natAbs ≤ 8640000000000000 then .ok (isoDate (t * 1000))
    else .error .rangeError

/-- The calendar date that `toLocaleDateString` renders for a timestamp in seconds, on a host
whose time zone is `offset` seconds east of UTC. -/
def localDate (offset : Int) (timestamp : Int) : Int × Int × Int :=
  civilFromDays ((timestamp + offset) / 86400)

/-! ## Daily summary -/

/-- `Array.prototype.sort` with a comparator: the sort is stable, and for a comparator that
orders by a key its result is the stable sort by that key, which insertion from the right
computes. The comparator sees the array as it was when `sort` was called. -/
def sortBy {α : Type} (compare : α → α → Int) (xs : List α) : List α :=
  xs.insertionSort (fun a b => compare a b ≤ 0)

/-- `calculateDominantCondition` (App.js lines 131-137); `pop()` gives the last element, or
`undefined` (`none`) on an empty array. -/
def calculateDominantCondition (data : List CityReading) : Option String :=
  let conditions := data.map (fun entry => entry.main)
  (sortBy (fun a b =>
      ((conditions.filter (fun v => v = a)).length : Int)
        - ((conditions.filter (fun v => v = b)).length : Int)) conditions).getLast?

/-- The filter of `processDailySummary` (App.js lines 111-113), from the left; the first
`RangeError` ends it. -/
def filterToday (today : String) : List CityReading → Except JSError (List CityReading)
  | [] => .ok []
  | entry :: rest =>
    match entryIsoDate entry.timestamp with
    | .error e => .error e
    | .ok date =>
      match filterToday today rest with
      | .error e => .error e
      | .ok kept => .ok (if date = today then entry :: kept else kept)

/-- `processDailySummary` (App.js lines 109-129). `now` is the time value of `new Date()` in
milliseconds. On a non-empty argument list `Math.max` and `Math.min` are the folds of `max` and
`min` from the first argument. -/
def processDailySummary (now : Int) (data : List CityReading) (st : AppState) :
    Except JSError AppState :=
  let today := isoDate now
  match filterToday today data with
  | .error e => .error e
  | .ok dailyData =>
    match dailyData with
    | [] => .ok st
    | first :: rest =>
      let temperatures := dailyData.map (fun entry => entry.temp)
      let avgTemp := temperatures.foldl (fun a b => a + b) 0 / (temperatures.length : ℚ)
      let maxTemp := (rest.map (fun entry => entry.temp)).foldl max first.temp
      let minTemp := (rest.map (fun entry => entry.temp)).foldl min first.temp
      let dominantCondition := calculateDominantCondition dailyData
      let summary : DailySummary :=
        { avgTemp := avgTemp, maxTemp := maxTemp, minTemp := minTemp,
          dominantCondition := dominantCondition }
      .ok { st with dailySummary := some summary }

/-! ## The polling cycle -/

/-- The `main` object of a current-conditions payload. -/
structure MainBlock where
  temp : ℚ
  feels_like : Option ℚ
  humidity : Option ℚ

/-- The `data` of a current-conditions response, as far as the cycle reads it: `weather` is the
array of the condition labels of its elements, `wind` the `speed` of the wind object; `none` is
an absent property. -/
structure WeatherPayload where
  name : String
  weather : Option (List String)
  main : Option MainBlock
  wind : Option (Option ℚ)
  dt : Option Int

/-- The outcome of one `axios.get`. -/
inductive Response (α : Type) where
  | fulfilled (data : α) : Response α
  | rejected : Response α

/-- `await Promise.all(...)`: the list of the results, or `none` when a request is rejected. -/
def promiseAll {α : Type} : List (Response α) → Option (List α)
  | [] => some []
  | .rejected :: _ => none
  | .fulfilled data :: rest =>
    match promiseAll rest with
    | none => none
    | some results => some (data :: results)

/-- The callback of `weatherResponses.map` (App.js lines 56-64); reading a property of an
absent object, or of the absent first element of `weather`, throws a `TypeError`. -/
def toReading (data : WeatherPayload) : Except JSError CityReading :=
  match data.weather with
  | none => .error .typeError
  | some [] => .error .typeError
  | some (label :: _) =>
    match data.main with
    | none => .error .typeError
    | some block =>
      match data.wind with
      | none => .error .typeError
      | some speed =>
        .ok { city := data.name, main := label, temp := block.temp,
              feels_like := block.feels_like, humidity := block.humidity,
              wind_speed := speed, timestamp := data.dt }

/-- The callback of `forecastResponses.map` (App.js lines 66-69). -/
def toCityForecast {κ : Type} [DecidableEq κ] (toLocaleDateString : JSVal → κ)
    (data : JSVal) : Except JSError CityForecast := do
  let city ← (← data.get "city").get "name"
  let forecast ← processForecast toLocaleDateString (← data.get "list")
  pure { city := city, forecast := forecast }

/-- `Array.prototype.map` with a callback that can throw: from the left, the first exception
ends it. -/
def mapThrowing {α β : Type} (f : α → Except JSError β) : List α → Except JSError (List β)
  | [] => .ok []
  | a :: rest =>
    match f a with
    | .error e => .error e
    | .ok b =>
      match mapThrowing f rest with
      | .error e => .error e
      | .ok bs => .ok (b :: bs)

/-- `fetchWeatherData` (App.js lines 38-78). `consecutiveBreaches` is the variable of the
render that created this function, which its `checkForAlerts` closes over; the two lists are
the outcomes of the requests, in the order of `cities`; `st` is the state before the cycle and
the result the state with every setter call of the cycle applied. An exception leaves the
`try` block for the `catch`, which only logs. -/
def fetchWeatherData {κ : Type} [DecidableEq κ] (toLocaleDateString : JSVal → κ)
    (consecutiveBreaches : BreachState) (now : Int)
    (weatherRequests : List (Response WeatherPayload)) (forecastRequests : List (Response JSVal))
    (st : AppState) : AppState :=
  match promiseAll weatherRequests with
  | none => st
  | some weatherResponses =>
    match promiseAll forecastRequests with
    | none => st
    | some forecastResponses =>
      match mapThrowing toReading weatherResponses with
      | .error _ => st
      | .ok weatherData =>
        match mapThrowing (toCityForecast toLocaleDateString) forecastResponses with
        | .error _ => st
        | .ok forecastData =>
          let st1 := { st with weatherData := weatherData }
          let st2 := { st1 with forecastData := forecastData }
          match processDailySummary now weatherData st2 with
          | .error _ => st2
          | .ok st3 => checkForAlerts consecutiveBreaches weatherData st3

/-- What one tick of the timer meets: the clock and the outcomes of the requests. -/
structure Poll where
  now : Int
  weatherRequests : List (Response WeatherPayload)
  forecastRequests : List (Response JSVal)

/-- The effect of `App` (App.js lines 80-87): its dependency list is empty, so it runs after
the first render only, and both the immediate call and `setInterval` get the
`fetchWeatherData` of that render, whose `consecutiveBreaches` is the initial `{}`. -/
def runApp {κ : Type} [DecidableEq κ] (toLocaleDateString : JSVal → κ)
    (polls : List Poll) : AppState :=
  polls.foldl (fun st poll =>
    fetchWeatherData toLocaleDateString initialState.consecutiveBreaches poll.now
      poll.weatherRequests poll.forecastRequests st) initialState

/-! ## What the claims speak of -/

/-- The number of readings of a list that bear a condition label. -/
def occurrences (data : List CityReading) (label : String) : Nat :=
  ((data.map (fun entry => entry.main)).filter (fun v => v = label)).length

/-- The readings that the specification says the Daily Summary Aggregator keeps: those whose
local calendar date, on a host `offset` seconds east of UTC, is the local calendar date of the
aggregation instant `now` (in milliseconds). -/
def localToday (offset : Int) (now : Int) (data : List CityReading) : List CityReading :=
  data.filter (fun entry =>
    match entry.timestamp with
    | some t => decide (localDate offset t = localDate offset (now / 1000))
    | none => false)

/-- A payload in which the cycle reads through something absent: the `weather` array or its
first element, the `main` object or the `wind` object. -/
def lacksContainer (data : WeatherPayload) : Prop :=
  data.weather = none ∨ data.weather = some [] ∨ data.main = none ∨ data.wind = none

/-! ## Invariants -/

/-- What `dailyForecast` holds at every point of the loop of `processForecast`: stored days,
each under the date of its own `dt`, no date twice. -/
def DaysStored {κ : Type} (d : JSVal → κ) (acc : List (κ × JSVal)) : Prop :=
  (acc.map Prod.fst).Nodup
    ∧ ∀ p ∈ acc, ∃ t f u w m dt, p = (d dt, forecastDay t f u w m dt)

/-- What holds of the state of `App` as wired, after any number of polls: no alert, and no
counter above 1. -/
def NeverAlerts (st : AppState) : Prop :=
  st.alerts = [] ∧ ∀ c n, st.consecutiveBreaches.read c = some n → n ≤ 1

/-! ## Concrete payloads -/

/-! ## Concrete inputs -/

/-- A current-conditions payload of a city at a temperature, with every property present. -/
def payload (name : String) (temp : ℚ) (dt : Int) : WeatherPayload :=
  { name := name, weather := some ["Clear"],
    main := some { temp := temp, feels_like := some temp, humidity := some 40 },
    wind := some (some 3), dt := some dt }

/-- The payload of `payload` without its `dt`. -/
def payloadNoDt (name : String) (temp : ℚ) : WeatherPayload :=
  { name := name, weather := some ["Clear"],
    main := some { temp := temp, feels_like := some temp, humidity := some 40 },
    wind := some (some 3), dt := none }

/-- The payload of `payload` without the `humidity` of its `main`. -/
def payloadNoHumidity (name : String) (temp : ℚ) (dt : Int) : WeatherPayload :=
  { name := name, weather := some ["Clear"],
    main := some { temp := temp, feels_like := some temp, humidity := none },
    wind := some (some 3), dt := some dt }

/-- A forecast payload of a city with an empty sample list. -/
def forecastPayload (name : String) : JSVal :=
  .obj [("city", .obj [("name", .str name)]), ("list", .arr [])]

/-- A poll at 2026-11-05 00:00:10 UTC in which every request succeeds and Delhi reports 30. -/
def hotPoll : Poll :=
  { now := 1793836810000,
    weatherRequests := [.fulfilled (payload "Delhi" 30 1793836800)],
    forecastRequests := [.fulfilled (forecastPayload "Delhi")] }

/-- A reading with a condition label. -/
def labelled (label : String) : CityReading :=
  { city := "Delhi", main := label, temp := 20, feels_like := none, humidity := none,
    wind_speed := none, timestamp := none }

/-- A reading of a city at a temperature and a timestamp, every property present. -/
def stamped (city : String) (temp : ℚ) (timestamp : Int) : CityReading :=
  { city := city, main := "Clear", temp := temp, feels_like := some temp, humidity := some 40,
    wind_speed := some 3, timestamp := some timestamp }

/-- A poll of the scenario of the specification, at 2026-11-05 00:00:10 UTC: every request
succeeds, city `A` reports `a` and city `B` reports `b`. -/
def scenarioPoll (a b : ℚ) : Poll :=
  { now := 1793836810000,
    weatherRequests := [.fulfilled (payload "A" a 1793836800),
                        .fulfilled (payload "B" b 1793836800)],
    forecastRequests := [.fulfilled (forecastPayload "A"), .fulfilled (forecastPayload "B")] }

/-! ## The Forecast Reducer -/

theorem lookup_isNone_iff {κ β : Type} [DecidableEq κ] (l : List (κ × β)) (k : κ) :
    (l.lookup k).isNone = true ↔ k ∉ l.map Prod.fst := by
  induction l with
  | nil => simp
  | cons p l ih =>
    obtain ⟨a, b⟩ := p
    by_cases h : k = a
    · subst h; simp [List.lookup]
    · have h2 : (k == a) = false := by simpa using h
      simp [List.lookup, h2, ih, h]

theorem get_of_isRawSample (s : JSVal) (h : isRawSample s = true) (k : String) :
    s.get k = .ok (s.prop k) := by
  cases s <;> simp [isRawSample] at h
  simp [JSVal.get, JSVal.prop]

theorem projectSample_of_isRawSample (s : JSVal) (h : isRawSample s = true) :
    projectSample s = .ok (projection s) := by
  cases s with
  | obj fields =>
    simp only [isRawSample, Bool.and_eq_true] at h
    obtain ⟨⟨h1, h2⟩, h3⟩ := h
    cases hm : fields.lookup "main" with
    | none => simp [hm] at h1
    | some m =>
      cases m <;> simp [hm] at h1
      cases hw : fields.lookup "wind" with
      | none => simp [hw] at h2
      | some w =>
        cases w <;> simp [hw] at h2
        cases hz : fields.lookup "weather" with
        | none => simp [hz] at h3
        | some z =>
          cases z <;> simp [hz] at h3
          rename_i items
          cases items with
          | nil => simp at h3
          | cons w0 ws =>
            cases w0 <;> simp at h3
            simp [projectSample, projection, JSVal.get, JSVal.prop, JSVal.first, weatherHead, hm, hw, hz,
              bind, Except.bind, pure, Except.pure]
  | _ => simp [isRawSample] at h


theorem forEachLoop_eq {κ : Type} [DecidableEq κ] (d : JSVal → κ) (xs : List JSVal) :
    ∀ (seen : List κ) (acc : List (κ × JSVal)),
      (∀ s ∈ xs, isRawSample s = true) → (∀ k, k ∈ seen ↔ k ∈ acc.map Prod.fst) →
      forEachLoop d xs acc =
        .ok (acc ++ (firstOfDateAux (dateOfDt d) seen xs).map
          (fun s => (dateOfDt d s, projection s))) := by
  induction xs with
  | nil => intro seen acc _ _; simp [forEachLoop, firstOfDateAux]
  | cons x xs ih =>
    intro seen acc hraw hseen
    have hx : isRawSample x = true := hraw x (List.mem_cons_self _ _)
    have hxs : ∀ s ∈ xs, isRawSample s = true := fun s hs => hraw s (List.mem_cons_of_mem _ hs)
    by_cases hin : dateOfDt d x ∈ seen
    · have hl : ¬ ((acc.lookup (d (x.prop "dt"))).isNone = true) := by
        rw [lookup_isNone_iff]; simpa using (hseen _).1 hin
      have hstep : forEachForecast d acc x = .ok acc := by
        simp [forEachForecast, get_of_isRawSample x hx, bind, Except.bind, hl, pure, Except.pure]
      simp only [forEachLoop, hstep, firstOfDateAux, hin, if_true]
      exact ih seen acc hxs hseen
    · have hl : (acc.lookup (d (x.prop "dt"))).isNone = true := by
        rw [lookup_isNone_iff]; intro hc; exact hin ((hseen _).2 hc)
      have hstep : forEachForecast d acc x = .ok (acc ++ [(dateOfDt d x, projection x)]) := by
        simp [forEachForecast, get_of_isRawSample x hx, projectSample_of_isRawSample x hx, bind,
          Except.bind, hl, pure, Except.pure, dateOfDt]
      simp only [forEachLoop, hstep, firstOfDateAux, hin, if_false]
      rw [ih (dateOfDt d x :: seen) (acc ++ [(dateOfDt d x, projection x)]) hxs]
      · simp
      · intro k
        simp only [List.mem_cons, List.map_append, List.mem_append, List.map_cons, List.map_nil,
          List.mem_singleton, hseen k]
        tauto

theorem firstOfDateAux_sublist {κ : Type} [DecidableEq κ] (date : JSVal → κ) (xs : List JSVal) :
    ∀ seen, (firstOfDateAux date seen xs).Sublist xs := by
  induction xs with
  | nil => intro seen; simp [firstOfDateAux]
  | cons x xs ih =>
    intro seen
    by_cases h : date x ∈ seen
    · simp only [firstOfDateAux, h, if_true]; exact (ih seen).cons x
    · simp only [firstOfDateAux, h, if_false]; exact (ih _).cons₂ x

theorem firstOfDateAux_not_seen {κ : Type} [DecidableEq κ] (date : JSVal → κ) (xs : List JSVal) :
    ∀ seen, ∀ y ∈ firstOfDateAux date seen xs, date y ∉ seen := by
  induction xs with
  | nil => intro seen y hy; simp [firstOfDateAux] at hy
  | cons x xs ih =>
    intro seen y hy
    by_cases h : date x ∈ seen
    · simp only [firstOfDateAux, h, if_true] at hy; exact ih seen y hy
    · simp only [firstOfDateAux, h, if_false, List.mem_cons] at hy
      rcases hy with rfl | hy
      · exact h
      · intro hc; exact ih _ y hy (List.mem_cons_of_mem _ hc)

theorem firstOfDateAux_nodup {κ : Type} [DecidableEq κ] (date : JSVal → κ) (xs : List JSVal) :
    ∀ seen, ((firstOfDateAux date seen xs).map date).Nodup := by
  induction xs with
  | nil => intro seen; simp [firstOfDateAux]
  | cons x xs ih =>
    intro seen
    by_cases h : date x ∈ seen
    · simp only [firstOfDateAux, h, if_true]; exact ih seen
    · simp only [firstOfDateAux, h, if_false, List.map_cons, List.nodup_cons]
      refine ⟨?_, ih _⟩
      intro hc
      obtain ⟨y, hy, hyd⟩ := List.mem_map.1 hc
      exact firstOfDateAux_not_seen date xs _ y hy (by rw [hyd]; exact List.mem_cons_self _ _)

theorem firstOfDateAux_covers {κ : Type} [DecidableEq κ] (date : JSVal → κ) (xs : List JSVal) :
    ∀ seen, ∀ x ∈ xs, date x ∈ seen ∨ date x ∈ (firstOfDateAux date seen xs).map date := by
  induction xs with
  | nil => intro seen x hx; simp at hx
  | cons a xs ih =>
    intro seen x hx
    by_cases h : date a ∈ seen
    · simp only [firstOfDateAux, h, if_true]
      rcases List.mem_cons.1 hx with rfl | hx
      · exact Or.inl h
      · exact ih seen x hx
    · simp only [firstOfDateAux, h, if_false, List.map_cons, List.mem_cons]
      rcases List.mem_cons.1 hx with rfl | hx
      · exact Or.inr (Or.inl rfl)
      · rcases ih (date a :: seen) x hx with h1 | h1
        · rcases List.mem_cons.1 h1 with h2 | h2
          · exact Or.inr (Or.inl h2)
          · exact Or.inl h2
        · exact Or.inr (Or.inr h1)

theorem firstOfDateAux_find {κ : Type} [DecidableEq κ] (date : JSVal → κ) (xs : List JSVal) :
    ∀ seen, ∀ y ∈ firstOfDateAux date seen xs,
      xs.find? (fun x => decide (date x = date y)) = some y := by
  induction xs with
  | nil => intro seen y hy; simp [firstOfDateAux] at hy
  | cons a xs ih =>
    intro seen y hy
    by_cases h : date a ∈ seen
    · simp only [firstOfDateAux, h, if_true] at hy
      have hne : date a ≠ date y := by
        intro hc; exact firstOfDateAux_not_seen date xs seen y hy (hc ▸ h)
      simp [List.find?, hne, ih seen y hy]
    · simp only [firstOfDateAux, h, if_false, List.mem_cons] at hy
      rcases hy with rfl | hy
      · simp [List.find?]
      · have hne : date a ≠ date y := by
          intro hc
          exact firstOfDateAux_not_seen date xs _ y hy (by rw [← hc]; exact List.mem_cons_self _ _)
        simp [List.find?, hne, ih _ y hy]

theorem dateOfDt_projection {κ : Type} (d : JSVal → κ) (s : JSVal) (h : isRawSample s = true) :
    dateOfDt d (projection s) = dateOfDt d s := by
  cases s <;> simp [isRawSample] at h
  simp [dateOfDt, projection, forecastDay, JSVal.prop, List.lookup]

theorem processForecast_eq {κ : Type} [DecidableEq κ] (d : JSVal → κ) (samples : List JSVal)
    (hraw : ∀ s ∈ samples, isRawSample s = true) :
    processForecast d (.arr samples) = .ok ((firstOfDate (dateOfDt d) samples).map projection) := by
  have h := forEachLoop_eq d samples [] [] hraw (by simp)
  simp [processForecast, h, firstOfDate, Function.comp_def]

theorem map_dateOfDt_projection {κ : Type} (d : JSVal → κ) (l : List JSVal)
    (hraw : ∀ s ∈ l, isRawSample s = true) :
    (l.map projection).map (dateOfDt d) = l.map (dateOfDt d) := by
  rw [List.map_map]
  apply List.map_congr_left
  intro s hs
  exact dateOfDt_projection d s (hraw s hs)

/-- C1: on a list of raw forecast samples, each with a non-empty weather array,
`processForecast` returns, for exactly the samples that are the first of the list to bear
their calendar date and in list order, the object
`{temp, feels_like, humidity, wind_speed, main, dt}` whose values are the sample's `main.temp`,
`main.feels_like`, `main.humidity`, `wind.speed`, `weather[0].main` and `dt`: the kept samples
are a sublist of the input, each is the first sample of the input with its date, the dates of
the output are pairwise distinct and are exactly the dates of the input, and the empty list
gives the empty list. -/
theorem processForecast_first_of_date {κ : Type} [DecidableEq κ] (d : JSVal → κ)
    (samples : List JSVal) (hraw : ∀ s ∈ samples, isRawSample s = true) :
    ∃ out, processForecast d (.arr samples) = .ok out
      ∧ out = (firstOfDate (dateOfDt d) samples).map (fun s => JSVal.obj
          [("temp", (s.prop "main").prop "temp"),
           ("feels_like", (s.prop "main").prop "feels_like"),
           ("humidity", (s.prop "main").prop "humidity"),
           ("wind_speed", (s.prop "wind").prop "speed"),
           ("main", (weatherHead s).prop "main"),
           ("dt", s.prop "dt")])
      ∧ (firstOfDate (dateOfDt d) samples).Sublist samples
      ∧ (∀ y ∈ firstOfDate (dateOfDt d) samples,
          samples.find? (fun x => decide (dateOfDt d x = dateOfDt d y)) = some y)
      ∧ (out.map (dateOfDt d)).Nodup
      ∧ (∀ k, k ∈ out.map (dateOfDt d) ↔ k ∈ samples.map (dateOfDt d))
      ∧ (samples = [] → out = []) := by
  have hsub := firstOfDateAux_sublist (dateOfDt d) samples []
  have hrawF : ∀ s ∈ firstOfDate (dateOfDt d) samples, isRawSample s = true :=
    fun s hs => hraw s (hsub.subset hs)
  refine ⟨_, processForecast_eq d samples hraw, rfl, hsub,
    firstOfDateAux_find (dateOfDt d) samples [], ?_, ?_, ?_⟩
  · rw [map_dateOfDt_projection d _ hrawF]
    exact firstOfDateAux_nodup (dateOfDt d) samples []
  · intro k
    rw [map_dateOfDt_projection d _ hrawF]
    constructor
    · intro hk
      obtain ⟨y, hy, rfl⟩ := List.mem_map.1 hk
      exact List.mem_map.2 ⟨y, hsub.subset hy, rfl⟩
    · intro hk
      obtain ⟨x, hx, rfl⟩ := List.mem_map.1 hk
      rcases firstOfDateAux_covers (dateOfDt d) samples [] x hx with h | h
      · simp at h
      · exact h
  · rintro rfl
    simp [firstOfDate, firstOfDateAux]

/-- C1 at three samples, the first two of one day: the first and the third are kept, with
their own values. -/
theorem processForecast_first_of_date_witness :
    (∀ s ∈ [rawSample 1000 20 19 50 3 "Clear", rawSample 5000 22 21 40 4 "Rain",
            rawSample 90000 25 24 30 5 "Clouds"], isRawSample s = true)
    ∧ processForecast utcDayOfDt
          (.arr [rawSample 1000 20 19 50 3 "Clear", rawSample 5000 22 21 40 4 "Rain",
                 rawSample 90000 25 24 30 5 "Clouds"])
        = .ok [.obj [("temp", .num 20), ("feels_like", .num 19), ("humidity", .num 50),
                     ("wind_speed", .num 3), ("main", .str "Clear"), ("dt", .num 1000)],
               .obj [("temp", .num 25), ("feels_like", .num 24), ("humidity", .num 30),
                     ("wind_speed", .num 5), ("main", .str "Clouds"), ("dt", .num 90000)]]
    ∧ ∃ out, processForecast utcDayOfDt
          (.arr [rawSample 1000 20 19 50 3 "Clear", rawSample 5000 22 21 40 4 "Rain",
                 rawSample 90000 25 24 30 5 "Clouds"]) = .ok out
      ∧ out = (firstOfDate (dateOfDt utcDayOfDt)
          [rawSample 1000 20 19 50 3 "Clear", rawSample 5000 22 21 40 4 "Rain",
           rawSample 90000 25 24 30 5 "Clouds"]).map (fun s => JSVal.obj
          [("temp", (s.prop "main").prop "temp"),
           ("feels_like", (s.prop "main").prop "feels_like"),
           ("humidity", (s.prop "main").prop "humidity"),
           ("wind_speed", (s.prop "wind").prop "speed"),
           ("main", (weatherHead s).prop "main"),
           ("dt", s.prop "dt")])
      ∧ (firstOfDate (dateOfDt utcDayOfDt)
          [rawSample 1000 20 19 50 3 "Clear", rawSample 5000 22 21 40 4 "Rain",
           rawSample 90000 25 24 30 5 "Clouds"]).Sublist
          [rawSample 1000 20 19 50 3 "Clear", rawSample 5000 22 21 40 4 "Rain",
           rawSample 90000 25 24 30 5 "Clouds"]
      ∧ (∀ y ∈ firstOfDate (dateOfDt utcDayOfDt)
          [rawSample 1000 20 19 50 3 "Clear", rawSample 5000 22 21 40 4 "Rain",
           rawSample 90000 25 24 30 5 "Clouds"],
          [rawSample 1000 20 19 50 3 "Clear", rawSample 5000 22 21 40 4 "Rain",
           rawSample 90000 25 24 30 5 "Clouds"].find?
            (fun x => decide (dateOfDt utcDayOfDt x = dateOfDt utcDayOfDt y)) = some y)
      ∧ (out.map (dateOfDt utcDayOfDt)).Nodup
      ∧ (∀ k, k ∈ out.map (dateOfDt utcDayOfDt) ↔
          k ∈ [rawSample 1000 20 19 50 3 "Clear", rawSample 5000 22 21 40 4 "Rain",
               rawSample 90000 25 24 30 5 "Clouds"].map (dateOfDt utcDayOfDt))
      ∧ ([rawSample 1000 20 19 50 3 "Clear", rawSample 5000 22 21 40 4 "Rain",
          rawSample 90000 25 24 30 5 "Clouds"] = [] → out = []) :=
  have h : ∀ s ∈ [rawSample 1000 20 19 50 3 "Clear", rawSample 5000 22 21 40 4 "Rain",
      rawSample 90000 25 24 30 5 "Clouds"], isRawSample s = true := by
    intro s hs
    simp only [List.mem_cons, List.mem_singleton, List.not_mem_nil, or_false] at hs
    rcases hs with rfl | rfl | rfl <;> rfl
  ⟨h, by rfl, processForecast_first_of_date utcDayOfDt _ h⟩

theorem forEachForecast_shape {κ : Type} [DecidableEq κ] (d : JSVal → κ)
    (acc acc1 : List (κ × JSVal)) (x : JSVal) (h : forEachForecast d acc x = .ok acc1) :
    acc1 = acc ∨ ∃ t f u w m dt, d dt ∉ acc.map Prod.fst
      ∧ acc1 = acc ++ [(d dt, forecastDay t f u w m dt)] := by
  unfold forEachForecast at h
  cases hdt : x.get "dt" with
  | error e => simp [hdt, bind, Except.bind] at h
  | ok dt =>
    simp only [hdt, bind, Except.bind] at h
    by_cases hl : (acc.lookup (d dt)).isNone = true
    · simp only [hl, if_true] at h
      right
      unfold projectSample at h
      simp only [bind, Except.bind, hdt, pure, Except.pure] at h
      cases h1 : x.get "main" with
      | error e => simp [h1] at h
      | ok mn =>
        simp only [h1] at h
        cases h2 : mn.get "temp" with
        | error e => simp [h2] at h
        | ok t =>
          cases h3 : mn.get "feels_like" with
          | error e => simp [h2, h3] at h
          | ok f =>
            cases h4 : mn.get "humidity" with
            | error e => simp [h2, h3, h4] at h
            | ok u =>
              cases h5 : x.get "wind" with
              | error e => simp [h2, h3, h4, h5] at h
              | ok wd =>
                cases h6 : wd.get "speed" with
                | error e => simp [h2, h3, h4, h5, h6] at h
                | ok w =>
                  cases h7 : x.get "weather" with
                  | error e => simp [h2, h3, h4, h5, h6, h7] at h
                  | ok wa =>
                    cases h8 : wa.first with
                    | error e => simp [h2, h3, h4, h5, h6, h7, h8] at h
                    | ok w0 =>
                      cases h9 : w0.get "main" with
                      | error e => simp [h2, h3, h4, h5, h6, h7, h8, h9] at h
                      | ok m =>
                        simp only [h2, h3, h4, h5, h6, h7, h8, h9, Except.ok.injEq] at h
                        exact ⟨t, f, u, w, m, dt, (lookup_isNone_iff acc (d dt)).1 hl, h.symm⟩
    · simp only [hl, pure, Except.pure] at h
      left
      simpa using h.symm

theorem forEachLoop_stored {κ : Type} [DecidableEq κ] (d : JSVal → κ) (xs : List JSVal) :
    ∀ (acc out : List (κ × JSVal)), DaysStored d acc → forEachLoop d xs acc = .ok out →
      DaysStored d out := by
  induction xs with
  | nil =>
    intro acc out hacc h
    simp only [forEachLoop, Except.ok.injEq] at h
    exact h ▸ hacc
  | cons x xs ih =>
    intro acc out hacc h
    simp only [forEachLoop] at h
    cases hstep : forEachForecast d acc x with
    | error e => simp [hstep] at h
    | ok acc1 =>
      simp only [hstep] at h
      refine ih acc1 out ?_ h
      rcases forEachForecast_shape d acc acc1 x hstep with rfl | ⟨t, f, u, w, m, dt, hnew, rfl⟩
      · exact hacc
      · refine ⟨?_, ?_⟩
        · rw [List.map_append, List.nodup_append]
          refine ⟨hacc.1, by simp, ?_⟩
          intro a ha hb
          simp only [List.map_cons, List.map_nil, List.mem_singleton] at hb
          exact hnew (hb ▸ ha)
        · intro p hp
          rcases List.mem_append.1 hp with hp | hp
          · exact hacc.2 p hp
          · exact ⟨t, f, u, w, m, dt, by simpa using hp⟩

theorem forEachForecast_forecastDay {κ : Type} [DecidableEq κ] (d : JSVal → κ)
    (t f u w m dt : JSVal) :
    forEachForecast d [] (forecastDay t f u w m dt) = .error .typeError := by
  cases m <;>
    simp [forEachForecast, projectSample, forecastDay, JSVal.get, List.lookup, bind, Except.bind,
      pure, Except.pure]

theorem dateOfDt_forecastDay {κ : Type} (d : JSVal → κ) (t f u w m dt : JSVal) :
    dateOfDt d (forecastDay t f u w m dt) = d dt := by
  simp [dateOfDt, forecastDay, JSVal.prop, List.lookup]

/-- C8 (as amended): whenever `processForecast` succeeds on a list of samples, the days it
returns bear pairwise distinct dates, so the result is already reduced; running
`processForecast` on that result returns it unchanged exactly when it is empty, and on a
non-empty result it throws a `TypeError`, a stored day having no `wind` object to read
`speed` from. -/
theorem processForecast_rerun {κ : Type} [DecidableEq κ] (d : JSVal → κ)
    (samples out : List JSVal) (h : processForecast d (.arr samples) = .ok out) :
    (out.map (dateOfDt d)).Nodup
      ∧ (processForecast d (.arr out) = .ok out ↔ out = [])
      ∧ (out ≠ [] → processForecast d (.arr out) = .error .typeError) := by
  simp only [processForecast] at h
  cases hloop : forEachLoop d samples [] with
  | error e => simp [hloop] at h
  | ok acc =>
    simp only [hloop, Except.ok.injEq] at h
    have hst : DaysStored d acc :=
      forEachLoop_stored d samples [] acc ⟨by simp, by simp⟩ hloop
    have hdates : out.map (dateOfDt d) = acc.map Prod.fst := by
      rw [← h, List.map_map]
      apply List.map_congr_left
      intro p hp
      obtain ⟨t, f, u, w, m, dt, rfl⟩ := hst.2 p hp
      simp [dateOfDt_forecastDay]
    have hthrow : out ≠ [] → processForecast d (.arr out) = .error .typeError := by
      intro hne
      cases hout : out with
      | nil => exact absurd hout hne
      | cons o rest =>
        have ho : o ∈ acc.map Prod.snd := by rw [h, hout]; exact List.mem_cons_self _ _
        obtain ⟨p, hp, rfl⟩ := List.mem_map.1 ho
        obtain ⟨t, f, u, w, m, dt, rfl⟩ := hst.2 p hp
        simp [processForecast, forEachLoop, forEachForecast_forecastDay]
    refine ⟨hdates ▸ hst.1, ?_, hthrow⟩
    constructor
    · intro hok
      by_contra hne
      rw [hthrow hne] at hok
      cases hok
    · rintro rfl
      simp [processForecast, forEachLoop]

/-- C8 at one sample: the reducer returns one day, and throws when run on that day. -/
theorem processForecast_rerun_witness :
    processForecast utcDayOfDt (.arr [rawSample 1000 20 19 50 3 "Clear"])
        = .ok [forecastDay (.num 20) (.num 19) (.num 50) (.num 3) (.str "Clear") (.num 1000)]
    ∧ (([forecastDay (.num 20) (.num 19) (.num 50) (.num 3) (.str "Clear") (.num 1000)].map
          (dateOfDt utcDayOfDt)).Nodup
      ∧ (processForecast utcDayOfDt
            (.arr [forecastDay (.num 20) (.num 19) (.num 50) (.num 3) (.str "Clear") (.num 1000)])
          = .ok [forecastDay (.num 20) (.num 19) (.num 50) (.num 3) (.str "Clear") (.num 1000)]
          ↔ [forecastDay (.num 20) (.num 19) (.num 50) (.num 3) (.str "Clear") (.num 1000)] = [])
      ∧ ([forecastDay (.num 20) (.num 19) (.num 50) (.num 3) (.str "Clear") (.num 1000)] ≠ [] →
          processForecast utcDayOfDt
            (.arr [forecastDay (.num 20) (.num 19) (.num 50) (.num 3) (.str "Clear") (.num 1000)])
          = .error .typeError)) :=
  have h : processForecast utcDayOfDt (.arr [rawSample 1000 20 19 50 3 "Clear"])
      = .ok [forecastDay (.num 20) (.num 19) (.num 50) (.num 3) (.str "Clear") (.num 1000)] := by
    simp [processForecast, forEachLoop, forEachForecast, projectSample, rawSample, JSVal.get,
      JSVal.first, List.lookup, bind, Except.bind, pure, Except.pure]
  ⟨h, processForecast_rerun utcDayOfDt _ _ h⟩

/-- C8 (counterexample): `processForecast` succeeds on a one-sample list, and run on its own
result it does not return that result: it throws a `TypeError`. -/
theorem processForecast_not_idempotent :
    processForecast utcDayOfDt (.arr [rawSample 1000 20 19 50 3 "Clear"])
        = .ok [forecastDay (.num 20) (.num 19) (.num 50) (.num 3) (.str "Clear") (.num 1000)]
    ∧ processForecast utcDayOfDt
        (.arr [forecastDay (.num 20) (.num 19) (.num 50) (.num 3) (.str "Clear") (.num 1000)])
        = .error .typeError
    ∧ isRawSample (rawSample 1000 20 19 50 3 "Clear") = true := by
  refine ⟨?_, ?_, rfl⟩
  · simp [processForecast, forEachLoop, forEachForecast, projectSample, rawSample, JSVal.get,
      JSVal.first, List.lookup, bind, Except.bind, pure, Except.pure]
  · simp [processForecast, forEachLoop, forEachForecast, projectSample, forecastDay, JSVal.get,
      List.lookup, bind, Except.bind, pure, Except.pure]

/-! ## The Breach Tracker -/

theorem lookup_cons_self {β : Type} (c : String) (v : β) (l : List (String × β)) :
    ((c, v) :: l).lookup c = some v := by
  simp [List.lookup]

theorem lookup_cons_ne {β : Type} (c k : String) (v : β) (l : List (String × β)) (h : c ≠ k) :
    ((k, v) :: l).lookup c = l.lookup c := by
  have h2 : (c == k) = false := by simpa using h
  simp [List.lookup, h2]

theorem lookup_map_assign (c c1 : String) (n : Nat) (b : List (String × Nat)) :
    (b.map (fun p => if p.1 = c then (p.1, n) else p)).lookup c1
      = if c1 = c then (b.lookup c).map (fun _ => n) else b.lookup c1 := by
  induction b with
  | nil => simp
  | cons p b ih =>
    obtain ⟨k, v⟩ := p
    rw [List.map_cons]
    by_cases hk : k = c
    · rw [if_pos hk]
      subst hk
      by_cases h1 : c1 = k
      · subst h1
        rw [lookup_cons_self, lookup_cons_self]; simp
      · rw [lookup_cons_ne _ _ _ _ h1, lookup_cons_ne _ _ _ _ h1, ih, if_neg h1, if_neg h1]
    · rw [if_neg hk]
      by_cases h1 : c1 = k
      · subst h1
        rw [lookup_cons_self, lookup_cons_self, if_neg hk]
      · rw [lookup_cons_ne _ _ _ _ h1, ih]
        by_cases h2 : c1 = c
        · subst h2
          rw [if_pos rfl, if_pos rfl, lookup_cons_ne _ _ _ _ h1]
        · rw [if_neg h2, if_neg h2, lookup_cons_ne _ _ _ _ h1]

theorem lookup_append_new {β : Type} (c c1 : String) (n : β) (b : List (String × β)) :
    (b ++ [(c, n)]).lookup c1
      = match b.lookup c1 with
        | some v => some v
        | none => if c1 = c then some n else none := by
  induction b with
  | nil =>
    by_cases h : c1 = c
    · subst h; simp [List.lookup]
    · have h2 : (c1 == c) = false := by simpa using h
      simp [List.lookup, h2, h]
  | cons p b ih =>
    obtain ⟨k, v⟩ := p
    rw [List.cons_append]
    by_cases h1 : c1 = k
    · subst h1
      rw [lookup_cons_self, lookup_cons_self]
    · rw [lookup_cons_ne _ _ _ _ h1, lookup_cons_ne _ _ _ _ h1, ih]

theorem read_assign_same (b : BreachState) (c : String) (n : Nat) :
    (b.assign c n).read c = some n := by
  unfold BreachState.assign BreachState.read
  cases h : b.lookup c with
  | none => simp [lookup_append_new, h]
  | some v => simp [lookup_map_assign, h]

theorem read_assign_other (b : BreachState) (c c1 : String) (n : Nat) (hne : c1 ≠ c) :
    (b.assign c n).read c1 = b.read c1 := by
  unfold BreachState.assign BreachState.read
  cases h : b.lookup c with
  | none =>
    simp only [Option.isSome_none, Bool.false_eq_true, if_false, lookup_append_new, if_neg hne]
    cases b.lookup c1 <;> rfl
  | some v => simp [lookup_map_assign, hne]

/-- The counter the callback leaves for the city of the entry it has processed. -/
theorem checkEntry_read_same (loop : AlertLoop) (e : CityReading) :
    (checkEntry loop e).breaches.read e.city
      = some (if e.temp > alertThreshold then (loop.breaches.read e.city).getD 0 + 1 else 0) := by
  have hb0 : ((if (loop.breaches.read e.city).getD 0 = 0 then loop.breaches.assign e.city 0
      else loop.breaches).read e.city).getD 0 = (loop.breaches.read e.city).getD 0 := by
    by_cases h : (loop.breaches.read e.city).getD 0 = 0
    · rw [if_pos h, read_assign_same, h]; rfl
    · rw [if_neg h]
  unfold checkEntry
  simp only []
  generalize (if (loop.breaches.read e.city).getD 0 = 0 then loop.breaches.assign e.city 0
      else loop.breaches) = b0 at hb0 ⊢
  split_ifs <;> simp [read_assign_same, hb0]

theorem checkEntry_read_other (loop : AlertLoop) (e : CityReading) (c : String)
    (hne : c ≠ e.city) : (checkEntry loop e).breaches.read c = loop.breaches.read c := by
  have hb0 : (if (loop.breaches.read e.city).getD 0 = 0 then loop.breaches.assign e.city 0
      else loop.breaches).read c = loop.breaches.read c := by
    by_cases h : (loop.breaches.read e.city).getD 0 = 0
    · rw [if_pos h, read_assign_other _ _ _ _ hne]
    · rw [if_neg h]
  unfold checkEntry
  simp only []
  generalize (if (loop.breaches.read e.city).getD 0 = 0 then loop.breaches.assign e.city 0
      else loop.breaches) = b0 at hb0 ⊢
  split_ifs <;> simp [read_assign_other _ _ _ _ hne, hb0]

theorem checkEntry_newAlerts (loop : AlertLoop) (e : CityReading) :
    (checkEntry loop e).newAlerts
      = if e.temp > alertThreshold ∧ 1 ≤ (loop.breaches.read e.city).getD 0
        then loop.newAlerts ++ [alertOf e] else loop.newAlerts := by
  have hb0 : ((if (loop.breaches.read e.city).getD 0 = 0 then loop.breaches.assign e.city 0
      else loop.breaches).read e.city).getD 0 = (loop.breaches.read e.city).getD 0 := by
    by_cases h : (loop.breaches.read e.city).getD 0 = 0
    · rw [if_pos h, read_assign_same, h]; rfl
    · rw [if_neg h]
  unfold checkEntry
  simp only []
  generalize (if (loop.breaches.read e.city).getD 0 = 0 then loop.breaches.assign e.city 0
      else loop.breaches) = b0 at hb0 ⊢
  by_cases ht : e.temp > alertThreshold
  · simp only [ht, if_true, read_assign_same, Option.getD_some, hb0, true_and]
    by_cases h1 : 1 ≤ (loop.breaches.read e.city).getD 0
    · have h2 : (loop.breaches.read e.city).getD 0 + 1 ≥ 2 := by omega
      simp [h1, h2, alertOf]
    · have h2 : ¬ (loop.breaches.read e.city).getD 0 + 1 ≥ 2 := by omega
      simp [h1, h2]
  · simp [ht, read_assign_same]

theorem foldl_checkEntry_read_absent (data : List CityReading) :
    ∀ (loop : AlertLoop) (c : String), c ∉ data.map (fun e => e.city) →
      (data.foldl checkEntry loop).breaches.read c = loop.breaches.read c := by
  induction data with
  | nil => intro loop c _; rfl
  | cons e es ih =>
    intro loop c hc
    simp only [List.map_cons, List.mem_cons, not_or] at hc
    rw [List.foldl_cons, ih _ c hc.2, checkEntry_read_other loop e c hc.1]

theorem foldl_checkEntry_read_present (data : List CityReading) :
    ∀ (loop : AlertLoop), (data.map (fun e => e.city)).Nodup → ∀ e ∈ data,
      (data.foldl checkEntry loop).breaches.read e.city
        = some (if e.temp > alertThreshold then (loop.breaches.read e.city).getD 0 + 1 else 0) := by
  induction data with
  | nil => intro loop _ e he; simp at he
  | cons a es ih =>
    intro loop hnd e he
    simp only [List.map_cons, List.nodup_cons] at hnd
    rw [List.foldl_cons]
    rcases List.mem_cons.1 he with rfl | he
    · rw [foldl_checkEntry_read_absent es _ _ hnd.1, checkEntry_read_same]
    · have hne : e.city ≠ a.city := by
        intro hc
        exact hnd.1 (hc ▸ List.mem_map.2 ⟨e, he, rfl⟩)
      rw [ih _ hnd.2 e he, checkEntry_read_other loop a _ hne]

theorem foldl_checkEntry_newAlerts (data : List CityReading) :
    ∀ (loop : AlertLoop), (data.map (fun e => e.city)).Nodup →
      (data.foldl checkEntry loop).newAlerts
        = loop.newAlerts ++ (data.filter (fun e =>
            decide (e.temp > alertThreshold ∧ 1 ≤ (loop.breaches.read e.city).getD 0))).map
              alertOf := by
  induction data with
  | nil => intro loop _; simp
  | cons a es ih =>
    intro loop hnd
    simp only [List.map_cons, List.nodup_cons] at hnd
    rw [List.foldl_cons, ih _ hnd.2, checkEntry_newAlerts]
    have hcongr : es.filter (fun e => decide (e.temp > alertThreshold
          ∧ 1 ≤ ((checkEntry loop a).breaches.read e.city).getD 0))
        = es.filter (fun e => decide (e.temp > alertThreshold
          ∧ 1 ≤ (loop.breaches.read e.city).getD 0)) := by
      apply List.filter_congr
      intro e he
      have hne : e.city ≠ a.city := by
        intro hc
        exact hnd.1 (hc ▸ List.mem_map.2 ⟨e, he, rfl⟩)
      rw [checkEntry_read_other loop a _ hne]
    rw [hcongr, List.filter_cons]
    by_cases h : a.temp > alertThreshold ∧ 1 ≤ (loop.breaches.read a.city).getD 0
    · simp [h]
    · simp [h]

theorem checkForAlerts_breaches (prior : BreachState) (data : List CityReading) (st : AppState) :
    (checkForAlerts prior data st).consecutiveBreaches
      = (data.foldl checkEntry
          { newAlerts := [], breaches := prior, snackbarOpen := st.snackbarOpen,
            snackbarMessage := st.snackbarMessage }).breaches := rfl

theorem checkForAlerts_alerts (prior : BreachState) (data : List CityReading) (st : AppState)
    (hnd : (data.map (fun e => e.city)).Nodup) :
    (checkForAlerts prior data st).alerts
      = (data.filter (fun e =>
          decide (e.temp > alertThreshold ∧ 1 ≤ (prior.read e.city).getD 0))).map alertOf := by
  show (data.foldl checkEntry _).newAlerts = _
  rw [foldl_checkEntry_newAlerts data _ hnd]
  simp

/-- C2: for every prior BreachState and every poll in which each city appears at most once,
the BreachState that `checkForAlerts` sets maps a city of the poll with temperature above 25
to its prior count (0 if it had none) plus 1, a city of the poll with temperature at most 25
to 0, and leaves a city that is not in the poll as it was. -/
theorem checkForAlerts_counts (prior : BreachState) (data : List CityReading) (st : AppState)
    (hnd : (data.map (fun e => e.city)).Nodup) (c : String) :
    (∀ e ∈ data, e.city = c → e.temp > 25 →
        (checkForAlerts prior data st).consecutiveBreaches.read c
          = some ((prior.read c).getD 0 + 1))
    ∧ (∀ e ∈ data, e.city = c → e.temp ≤ 25 →
        (checkForAlerts prior data st).consecutiveBreaches.read c = some 0)
    ∧ (c ∉ data.map (fun e => e.city) →
        (checkForAlerts prior data st).consecutiveBreaches.read c = prior.read c) := by
  refine ⟨?_, ?_, ?_⟩
  · rintro e he rfl ht
    rw [checkForAlerts_breaches, foldl_checkEntry_read_present data _ hnd e he]
    simp [alertThreshold, ht]
  · rintro e he rfl ht
    rw [checkForAlerts_breaches, foldl_checkEntry_read_present data _ hnd e he]
    have : ¬ e.temp > alertThreshold := by simpa [alertThreshold] using ht
    simp [this]
  · intro hc
    rw [checkForAlerts_breaches, foldl_checkEntry_read_absent data _ c hc]

/-- C2 on the second poll of the scenario: `A` at 27 goes from 1 to 2, `B` at 20 goes to 0,
and `C`, which is not in the poll, keeps its 5. -/
theorem checkForAlerts_counts_witness :
    ([reading "A" 27, reading "B" 20].map (fun e => e.city)).Nodup
    ∧ (checkForAlerts [("A", 1), ("B", 0), ("C", 5)] [reading "A" 27, reading "B" 20]
        initialState).consecutiveBreaches = [("A", 2), ("B", 0), ("C", 5)]
    ∧ (∀ e ∈ [reading "A" 27, reading "B" 20], e.city = "A" → e.temp > 25 →
        (checkForAlerts [("A", 1), ("B", 0), ("C", 5)] [reading "A" 27, reading "B" 20]
          initialState).consecutiveBreaches.read "A"
          = some ((BreachState.read [("A", 1), ("B", 0), ("C", 5)] "A").getD 0 + 1))
    ∧ (∀ e ∈ [reading "A" 27, reading "B" 20], e.city = "A" → e.temp ≤ 25 →
        (checkForAlerts [("A", 1), ("B", 0), ("C", 5)] [reading "A" 27, reading "B" 20]
          initialState).consecutiveBreaches.read "A" = some 0)
    ∧ ("A" ∉ [reading "A" 27, reading "B" 20].map (fun e => e.city) →
        (checkForAlerts [("A", 1), ("B", 0), ("C", 5)] [reading "A" 27, reading "B" 20]
          initialState).consecutiveBreaches.read "A"
          = BreachState.read [("A", 1), ("B", 0), ("C", 5)] "A") :=
  have hnd : ([reading "A" 27, reading "B" 20].map (fun e => e.city)).Nodup := by decide
  ⟨hnd, by decide,
    checkForAlerts_counts [("A", 1), ("B", 0), ("C", 5)] [reading "A" 27, reading "B" 20]
      initialState hnd "A"⟩

/-! ## The effect that schedules the cycle -/

theorem mapThrowing_toReading_cities (ws : List WeatherPayload) :
    ∀ data, mapThrowing toReading ws = .ok data →
      data.map (fun e => e.city) = ws.map (fun w => w.name) := by
  induction ws with
  | nil => intro data h; simp only [mapThrowing, Except.ok.injEq] at h; subst h; rfl
  | cons w ws ih =>
    intro data h
    simp only [mapThrowing] at h
    cases hr : toReading w with
    | error e => simp [hr] at h
    | ok r =>
      cases hrest : mapThrowing toReading ws with
      | error e => simp [hr, hrest] at h
      | ok rs =>
        simp only [hr, hrest, Except.ok.injEq] at h
        subst h
        have hcity : r.city = w.name := by
          unfold toReading at hr
          split at hr <;> try cases hr
          split at hr <;> try cases hr
          split at hr <;> try cases hr
          rfl
        simp [hcity, ih rs hrest]

theorem checkForAlerts_empty_closure (data : List CityReading) (st : AppState)
    (hnd : (data.map (fun e => e.city)).Nodup) :
    NeverAlerts (checkForAlerts [] data st) := by
  refine ⟨?_, ?_⟩
  · rw [checkForAlerts_alerts _ _ _ hnd]
    simp [BreachState.read]
  · intro c n hn
    rw [checkForAlerts_breaches] at hn
    by_cases hc : c ∈ data.map (fun e => e.city)
    · obtain ⟨e, he, rfl⟩ := List.mem_map.1 hc
      rw [foldl_checkEntry_read_present data _ hnd e he] at hn
      simp only [BreachState.read, List.lookup, Option.getD_none, zero_add,
        Option.some.injEq] at hn
      split_ifs at hn <;> omega
    · rw [foldl_checkEntry_read_absent data _ c hc] at hn
      simp [BreachState.read] at hn

theorem fetchWeatherData_neverAlerts {κ : Type} [DecidableEq κ] (d : JSVal → κ) (now : Int)
    (wr : List (Response WeatherPayload)) (fr : List (Response JSVal)) (st : AppState)
    (hnd : ∀ ws, promiseAll wr = some ws → (ws.map (fun w => w.name)).Nodup)
    (hst : NeverAlerts st) : NeverAlerts (fetchWeatherData d [] now wr fr st) := by
  cases hw : promiseAll wr with
  | none => simp only [fetchWeatherData, hw]; exact hst
  | some ws =>
    cases hf : promiseAll fr with
    | none => simp only [fetchWeatherData, hw, hf]; exact hst
    | some fs =>
      cases hr : mapThrowing toReading ws with
      | error e => simp only [fetchWeatherData, hw, hf, hr]; exact hst
      | ok data =>
        cases hfd : mapThrowing (toCityForecast d) fs with
        | error e => simp only [fetchWeatherData, hw, hf, hr, hfd]; exact hst
        | ok fdata =>
          cases hs : processDailySummary now data
              { st with weatherData := data, forecastData := fdata } with
          | error e => simp only [fetchWeatherData, hw, hf, hr, hfd, hs]; exact hst
          | ok st3 =>
            simp only [fetchWeatherData, hw, hf, hr, hfd, hs]
            apply checkForAlerts_empty_closure
            rw [mapThrowing_toReading_cities ws data hr]
            exact hnd ws hw

theorem foldl_fetchWeatherData_neverAlerts {κ : Type} [DecidableEq κ] (d : JSVal → κ)
    (polls : List Poll) :
    ∀ st : AppState,
      (∀ p ∈ polls, ∀ ws, promiseAll p.weatherRequests = some ws →
        (ws.map (fun w => w.name)).Nodup) →
      NeverAlerts st →
      NeverAlerts (polls.foldl (fun st poll =>
        fetchWeatherData d initialState.consecutiveBreaches poll.now
          poll.weatherRequests poll.forecastRequests st) st) := by
  induction polls with
  | nil => intro st _ hst; exact hst
  | cons p ps ih =>
    intro st hnd hst
    rw [List.foldl_cons]
    apply ih
    · intro q hq; exact hnd q (List.mem_cons_of_mem _ hq)
    · exact fetchWeatherData_neverAlerts d p.now p.weatherRequests p.forecastRequests st
        (hnd p (List.mem_cons_self _ _)) hst

/-- C10: as wired in `App`, every poll is run by the `fetchWeatherData` of the first render,
whose `checkForAlerts` closes over the empty BreachState. So, for every sequence of polls in
which each city appears at most once per poll, after any number of them the Alert list is
empty and no counter exceeds 1. -/
theorem runApp_never_alerts {κ : Type} [DecidableEq κ] (d : JSVal → κ) (polls : List Poll)
    (hnd : ∀ p ∈ polls, ∀ ws, promiseAll p.weatherRequests = some ws →
      (ws.map (fun w => w.name)).Nodup) :
    (∀ (pre : List Poll) (p : Poll), runApp d (pre ++ [p])
        = fetchWeatherData d [] p.now p.weatherRequests p.forecastRequests (runApp d pre))
    ∧ ∀ k, (runApp d (polls.take k)).alerts = []
        ∧ ∀ c n, (runApp d (polls.take k)).consecutiveBreaches.read c = some n → n ≤ 1 := by
  refine ⟨?_, ?_⟩
  · intro pre p
    simp [runApp, List.foldl_append, initialState]
  · intro k
    have h := foldl_fetchWeatherData_neverAlerts d (polls.take k) initialState
      (fun p hp => hnd p (List.mem_of_mem_take hp))
      ⟨rfl, by intro c n hn; simp [initialState, BreachState.read] at hn⟩
    exact h

/-- C10 on two polls in a row with Delhi at 30: the counter stands at 1 and no alert is
raised, where `checkForAlerts` run from the counter of the first poll raises one. -/
theorem runApp_never_alerts_witness :
    (∀ p ∈ [hotPoll, hotPoll], ∀ ws, promiseAll p.weatherRequests = some ws →
      (ws.map (fun w => w.name)).Nodup)
    ∧ (runApp utcDayOfDt ([hotPoll, hotPoll].take 2)).alerts = []
    ∧ (∀ c n, (runApp utcDayOfDt ([hotPoll, hotPoll].take 2)).consecutiveBreaches.read c
        = some n → n ≤ 1)
    ∧ (runApp utcDayOfDt [hotPoll, hotPoll]).consecutiveBreaches = [("Delhi", 1)]
    ∧ (checkForAlerts [("Delhi", 1)] [stamped "Delhi" 30 1793836800] initialState).alerts
        = [{ city := "Delhi", temp := 30, condition := "Clear" }] :=
  have hnd : ∀ p ∈ [hotPoll, hotPoll], ∀ ws, promiseAll p.weatherRequests = some ws →
      (ws.map (fun w => w.name)).Nodup := by
    intro p hp ws hws
    simp only [List.mem_cons, List.mem_singleton, List.not_mem_nil, or_false, or_self] at hp
    subst hp
    simp only [hotPoll, promiseAll, Option.some.injEq] at hws
    subst hws
    simp
  ⟨hnd, ((runApp_never_alerts utcDayOfDt [hotPoll, hotPoll] hnd).2 2).1,
    ((runApp_never_alerts utcDayOfDt [hotPoll, hotPoll] hnd).2 2).2, by rfl, by decide⟩

/-- C3: on the scenario of the claim (A=26,B=20; A=27,B=20; A=24,B=20) the program sets the
counts {A:1,B:0}, {A:1,B:0}, {A:0,B:0} and the alert lists [], [], [], where the claim has
{A:2,B:0} and [{A,27}] after the second poll: each poll is run by the `fetchWeatherData` of
the first render, whose `checkForAlerts` starts from the empty BreachState. Started from the
BreachState that the first poll set, `checkForAlerts` gives the counts and the alert of the
claim on the readings of the second poll. -/
theorem runApp_scenario :
    (runApp utcDayOfDt [scenarioPoll 26 20]).consecutiveBreaches = [("A", 1), ("B", 0)]
    ∧ (runApp utcDayOfDt [scenarioPoll 26 20]).alerts = []
    ∧ (runApp utcDayOfDt [scenarioPoll 26 20, scenarioPoll 27 20]).consecutiveBreaches
        = [("A", 1), ("B", 0)]
    ∧ (runApp utcDayOfDt [scenarioPoll 26 20, scenarioPoll 27 20]).alerts = []
    ∧ (runApp utcDayOfDt
        [scenarioPoll 26 20, scenarioPoll 27 20, scenarioPoll 24 20]).consecutiveBreaches
        = [("A", 0), ("B", 0)]
    ∧ (runApp utcDayOfDt
        [scenarioPoll 26 20, scenarioPoll 27 20, scenarioPoll 24 20]).alerts = []
    ∧ (runApp utcDayOfDt [scenarioPoll 26 20, scenarioPoll 27 20]).weatherData
        = [stamped "A" 27 1793836800, stamped "B" 20 1793836800]
    ∧ (checkForAlerts (runApp utcDayOfDt [scenarioPoll 26 20]).consecutiveBreaches
        [stamped "A" 27 1793836800, stamped "B" 20 1793836800]
        (runApp utcDayOfDt [scenarioPoll 26 20])).consecutiveBreaches = [("A", 2), ("B", 0)]
    ∧ (checkForAlerts (runApp utcDayOfDt [scenarioPoll 26 20]).consecutiveBreaches
        [stamped "A" 27 1793836800, stamped "B" 20 1793836800]
        (runApp utcDayOfDt [scenarioPoll 26 20])).alerts
        = [{ city := "A", temp := 27, condition := "Clear" }] := by
  exact ⟨by rfl, by rfl, by rfl, by rfl, by rfl, by rfl, by rfl, by rfl, by rfl⟩

/-! ## The dominant condition -/

theorem getLast?_orderedInsert {α : Type} (r : α → α → Prop) [DecidableRel r] (x : α) :
    ∀ l : List α, (l.orderedInsert r x).getLast?
      = if ∃ y ∈ l, r x y then l.getLast? else some x := by
  intro l
  induction l with
  | nil => simp
  | cons y ys ih =>
    by_cases h : r x y
    · have hex : ∃ z ∈ y :: ys, r x z := ⟨y, List.mem_cons_self _ _, h⟩
      rw [List.orderedInsert, if_pos h, if_pos hex]
      simp [List.getLast?_cons_cons]
    · rw [List.orderedInsert, if_neg h]
      have hne : ys.orderedInsert r x ≠ [] := by
        cases ys with
        | nil => simp
        | cons z zs => simp only [List.orderedInsert]; split_ifs <;> simp
      obtain ⟨a, as, has⟩ := List.exists_cons_of_ne_nil hne
      rw [has, List.getLast?_cons_cons, ← has, ih]
      by_cases hex : ∃ z ∈ ys, r x z
      · have hex2 : ∃ z ∈ y :: ys, r x z := by
          obtain ⟨z, hz, hr⟩ := hex
          exact ⟨z, List.mem_cons_of_mem _ hz, hr⟩
        rw [if_pos hex, if_pos hex2]
        obtain ⟨z, hz, _⟩ := hex
        obtain ⟨b, bs, hbs⟩ := List.exists_cons_of_ne_nil (List.ne_nil_of_mem hz)
        rw [hbs, List.getLast?_cons_cons]
      · have hex2 : ¬ ∃ z ∈ y :: ys, r x z := by
          rintro ⟨z, hz, hr⟩
          rcases List.mem_cons.1 hz with rfl | hz
          · exact h hr
          · exact hex ⟨z, hz, hr⟩
        rw [if_neg hex, if_neg hex2]

/-- The last element of a stable sort by a key: it splits the input into a part before it and
a part after it, no element has a greater key, and every element after it has a lesser key. -/
theorem getLast?_sortBy_key {α : Type} (key : α → Int) :
    ∀ (xs : List α) (m : α),
      (sortBy (fun a b => key a - key b) xs).getLast? = some m →
      ∃ pre post, xs = pre ++ m :: post ∧ (∀ y ∈ xs, key y ≤ key m)
        ∧ ∀ y ∈ post, key y < key m := by
  intro xs
  induction xs with
  | nil => intro m h; simp [sortBy] at h
  | cons x xs ih =>
    intro m h
    simp only [sortBy, List.insertionSort] at h
    rw [getLast?_orderedInsert] at h
    by_cases hex : ∃ y ∈ List.insertionSort (fun a b => key a - key b ≤ 0) xs,
        key x - key y ≤ 0
    · rw [if_pos hex] at h
      obtain ⟨pre, post, hxs, hmax, hpost⟩ := ih m h
      obtain ⟨y, hy, hxy⟩ := hex
      have hy2 : y ∈ xs := (List.perm_insertionSort _ xs).subset hy
      refine ⟨x :: pre, post, by rw [hxs]; rfl, ?_, hpost⟩
      intro z hz
      rcases List.mem_cons.1 hz with rfl | hz
      · have := hmax y hy2
        omega
      · exact hmax z hz
    · rw [if_neg hex] at h
      simp only [Option.some.injEq] at h
      subst h
      have hlt : ∀ y ∈ xs, key y < key x := by
        intro y hy
        by_contra hc
        exact hex ⟨y, (List.perm_insertionSort _ xs).symm.subset hy, by omega⟩
      refine ⟨[], xs, rfl, ?_, hlt⟩
      intro z hz
      rcases List.mem_cons.1 hz with rfl | hz
      · exact le_refl _
      · exact le_of_lt (hlt z hz)

theorem sortBy_ne_nil {α : Type} (compare : α → α → Int) (xs : List α) (h : xs ≠ []) :
    sortBy compare xs ≠ [] := by
  intro hc
  have := (List.perm_insertionSort (fun a b => compare a b ≤ 0) xs).length_eq
  unfold sortBy at hc
  rw [hc] at this
  exact h (List.length_eq_zero.1 this.symm)

theorem calculateDominantCondition_split (data : List CityReading) (hne : data ≠ []) :
    ∃ pre r post, data = pre ++ r :: post
      ∧ calculateDominantCondition data = some r.main
      ∧ (∀ e ∈ data, occurrences data e.main ≤ occurrences data r.main)
      ∧ ∀ e ∈ post, occurrences data e.main < occurrences data r.main := by
  have hcne : data.map (fun entry => entry.main) ≠ [] := by simpa using hne
  have hsne := sortBy_ne_nil (fun a b =>
      (((data.map (fun entry => entry.main)).filter (fun v => v = a)).length : Int)
        - (((data.map (fun entry => entry.main)).filter (fun v => v = b)).length : Int))
      (data.map (fun entry => entry.main)) hcne
  obtain ⟨m, hm⟩ : ∃ m, calculateDominantCondition data = some m := by
    unfold calculateDominantCondition
    simp only []
    rw [List.getLast?_eq_getLast _ hsne]
    exact ⟨_, rfl⟩
  have hm2 := hm
  unfold calculateDominantCondition at hm2
  simp only [] at hm2
  obtain ⟨pre, post, hsplit, hmax, hpost⟩ := getLast?_sortBy_key
    (fun a => (((data.map (fun entry => entry.main)).filter (fun v => v = a)).length : Int))
    (data.map (fun entry => entry.main)) m hm2
  obtain ⟨dpre, drest, hd, hpre, hrest⟩ := List.map_eq_append_iff.1 hsplit
  obtain ⟨r, dpost, hdr, hr, hdpost⟩ := List.map_eq_cons_iff.1 hrest
  subst hdr
  refine ⟨dpre, r, dpost, hd, by rw [hm, hr], ?_, ?_⟩
  · intro e he
    have := hmax e.main (List.mem_map.2 ⟨e, he, rfl⟩)
    simp only [occurrences, hr]
    exact_mod_cast this
  · intro e he
    have := hpost e.main (by rw [← hdpost]; exact List.mem_map.2 ⟨e, he, rfl⟩)
    simp only [occurrences, hr]
    exact_mod_cast this

/-- C5: on a non-empty list of readings `calculateDominantCondition` returns a condition label
that occurs in the list and that occurs at least as often as every label of the list. -/
theorem calculateDominantCondition_most_frequent (data : List CityReading) (hne : data ≠ []) :
    ∃ label, calculateDominantCondition data = some label
      ∧ label ∈ data.map (fun entry => entry.main)
      ∧ ∀ other ∈ data.map (fun entry => entry.main),
          occurrences data other ≤ occurrences data label := by
  obtain ⟨pre, r, post, hd, hres, hmax, _⟩ := calculateDominantCondition_split data hne
  refine ⟨r.main, hres, ?_, ?_⟩
  · rw [hd]; simp
  · intro other ho
    obtain ⟨e, he, rfl⟩ := List.mem_map.1 ho
    exact hmax e he

/-- C5 on the counts {Clear: 3, Rain: 1}: the result is "Clear". -/
theorem calculateDominantCondition_most_frequent_witness :
    [labelled "Clear", labelled "Rain", labelled "Clear", labelled "Clear"] ≠ []
    ∧ calculateDominantCondition
        [labelled "Clear", labelled "Rain", labelled "Clear", labelled "Clear"] = some "Clear"
    ∧ occurrences [labelled "Clear", labelled "Rain", labelled "Clear", labelled "Clear"]
        "Clear" = 3
    ∧ occurrences [labelled "Clear", labelled "Rain", labelled "Clear", labelled "Clear"]
        "Rain" = 1
    ∧ ∃ label, calculateDominantCondition
        [labelled "Clear", labelled "Rain", labelled "Clear", labelled "Clear"] = some label
      ∧ label ∈ [labelled "Clear", labelled "Rain", labelled "Clear", labelled "Clear"].map
          (fun entry => entry.main)
      ∧ ∀ other ∈ [labelled "Clear", labelled "Rain", labelled "Clear", labelled "Clear"].map
          (fun entry => entry.main),
          occurrences [labelled "Clear", labelled "Rain", labelled "Clear", labelled "Clear"]
            other
          ≤ occurrences [labelled "Clear", labelled "Rain", labelled "Clear", labelled "Clear"]
            label :=
  ⟨by simp, by decide, by decide, by decide,
    calculateDominantCondition_most_frequent _ (by simp)⟩

/-- C9: on a non-empty list of readings, ties included, `calculateDominantCondition` returns
the label of the last reading, in input order, whose label has the greatest number of
occurrences: the input splits at a reading with that label, no label of the list occurs more
often, and the label of every reading after it occurs less often. -/
theorem calculateDominantCondition_tie_break (data : List CityReading) (hne : data ≠ []) :
    ∃ pre r post, data = pre ++ r :: post
      ∧ calculateDominantCondition data = some r.main
      ∧ (∀ e ∈ data, occurrences data e.main ≤ occurrences data r.main)
      ∧ ∀ e ∈ post, occurrences data e.main < occurrences data r.main :=
  calculateDominantCondition_split data hne

/-- C9 on ties: the later of two labels that occur equally often is returned. -/
theorem calculateDominantCondition_tie_break_witness :
    [labelled "Clear", labelled "Rain", labelled "Rain", labelled "Clear", labelled "Snow"] ≠ []
    ∧ calculateDominantCondition [labelled "Clear", labelled "Rain"] = some "Rain"
    ∧ calculateDominantCondition [labelled "Rain", labelled "Clear"] = some "Clear"
    ∧ calculateDominantCondition
        [labelled "Clear", labelled "Rain", labelled "Rain", labelled "Clear", labelled "Snow"]
        = some "Clear"
    ∧ ∃ pre r post,
        [labelled "Clear", labelled "Rain", labelled "Rain", labelled "Clear", labelled "Snow"]
          = pre ++ r :: post
      ∧ calculateDominantCondition
          [labelled "Clear", labelled "Rain", labelled "Rain", labelled "Clear", labelled "Snow"]
          = some r.main
      ∧ (∀ e ∈ [labelled "Clear", labelled "Rain", labelled "Rain", labelled "Clear",
                labelled "Snow"],
          occurrences [labelled "Clear", labelled "Rain", labelled "Rain", labelled "Clear",
            labelled "Snow"] e.main
          ≤ occurrences [labelled "Clear", labelled "Rain", labelled "Rain", labelled "Clear",
            labelled "Snow"] r.main)
      ∧ ∀ e ∈ post,
          occurrences [labelled "Clear", labelled "Rain", labelled "Rain", labelled "Clear",
            labelled "Snow"] e.main
          < occurrences [labelled "Clear", labelled "Rain", labelled "Rain", labelled "Clear",
            labelled "Snow"] r.main :=
  ⟨by simp, by decide, by decide, by decide, calculateDominantCondition_tie_break _ (by simp)⟩

/-! ## The daily summary -/

theorem foldl_max_mem (l : List ℚ) : ∀ a : ℚ, l.foldl max a ∈ a :: l := by
  induction l with
  | nil => intro a; simp
  | cons x xs ih =>
    intro a
    rw [List.foldl_cons]
    rcases List.mem_cons.1 (ih (max a x)) with h | h
    · rw [h]
      rcases max_choice a x with hm | hm <;> rw [hm] <;> simp
    · exact List.mem_cons_of_mem _ (List.mem_cons_of_mem _ h)

theorem foldl_max_ge (l : List ℚ) : ∀ a : ℚ, ∀ t ∈ a :: l, t ≤ l.foldl max a := by
  induction l with
  | nil => intro a t ht; simp at ht; simp [ht]
  | cons x xs ih =>
    intro a t ht
    rw [List.foldl_cons]
    rcases List.mem_cons.1 ht with rfl | ht
    · exact le_trans (le_max_left _ _) (ih _ _ (List.mem_cons_self _ _))
    · rcases List.mem_cons.1 ht with rfl | ht
      · exact le_trans (le_max_right _ _) (ih _ _ (List.mem_cons_self _ _))
      · exact ih _ _ (List.mem_cons_of_mem _ ht)

theorem foldl_min_mem (l : List ℚ) : ∀ a : ℚ, l.foldl min a ∈ a :: l := by
  induction l with
  | nil => intro a; simp
  | cons x xs ih =>
    intro a
    rw [List.foldl_cons]
    rcases List.mem_cons.1 (ih (min a x)) with h | h
    · rw [h]
      rcases min_choice a x with hm | hm <;> rw [hm] <;> simp
    · exact List.mem_cons_of_mem _ (List.mem_cons_of_mem _ h)

theorem foldl_min_le (l : List ℚ) : ∀ a : ℚ, ∀ t ∈ a :: l, l.foldl min a ≤ t := by
  induction l with
  | nil => intro a t ht; simp at ht; simp [ht]
  | cons x xs ih =>
    intro a t ht
    rw [List.foldl_cons]
    rcases List.mem_cons.1 ht with rfl | ht
    · exact le_trans (ih _ _ (List.mem_cons_self _ _)) (min_le_left _ _)
    · rcases List.mem_cons.1 ht with rfl | ht
      · exact le_trans (ih _ _ (List.mem_cons_self _ _)) (min_le_right _ _)
      · exact ih _ _ (List.mem_cons_of_mem _ ht)

theorem foldl_add_eq_sum (l : List ℚ) : ∀ a : ℚ, l.foldl (fun a b => a + b) a = a + l.sum := by
  induction l with
  | nil => intro a; simp
  | cons x xs ih => intro a; rw [List.foldl_cons, ih, List.sum_cons]; ring

/-- The summary that `processDailySummary` computes from the readings it has kept. -/
theorem processDailySummary_of_kept (now : Int) (data : List CityReading) (st : AppState)
    (first : CityReading) (rest : List CityReading)
    (hf : filterToday (isoDate now) data = .ok (first :: rest)) :
    processDailySummary now data st = .ok { st with dailySummary := some (DailySummary.mk
      (((first :: rest).map (fun entry => entry.temp)).foldl (fun a b => a + b) 0
          / (((first :: rest).map (fun entry => entry.temp)).length : ℚ))
      ((rest.map (fun entry => entry.temp)).foldl max first.temp)
      ((rest.map (fun entry => entry.temp)).foldl min first.temp)
      (calculateDominantCondition (first :: rest))) } := by
  simp only [processDailySummary, hf]

/-- C4: when the readings dated today are not none, the summary that `processDailySummary`
sets has `avgTemp` the sum of their temperatures divided by their number, `maxTemp` the
greatest and `minTemp` the least of their temperatures, as exact rationals; the summary is the
same for every poll, clock and state with the same readings dated today, so no other reading
contributes to it. -/
theorem processDailySummary_stats (now : Int) (data : List CityReading) (st : AppState)
    (dailyData : List CityReading) (hf : filterToday (isoDate now) data = .ok dailyData)
    (hne : dailyData ≠ []) :
    ∃ s : DailySummary,
      processDailySummary now data st = .ok { st with dailySummary := some s }
      ∧ s.avgTemp = (dailyData.map (fun entry => entry.temp)).sum / (dailyData.length : ℚ)
      ∧ (s.maxTemp ∈ dailyData.map (fun entry => entry.temp)
          ∧ ∀ t ∈ dailyData.map (fun entry => entry.temp), t ≤ s.maxTemp)
      ∧ (s.minTemp ∈ dailyData.map (fun entry => entry.temp)
          ∧ ∀ t ∈ dailyData.map (fun entry => entry.temp), s.minTemp ≤ t)
      ∧ ∀ (now2 : Int) (data2 : List CityReading) (st2 : AppState),
          filterToday (isoDate now2) data2 = .ok dailyData →
          processDailySummary now2 data2 st2 = .ok { st2 with dailySummary := some s } := by
  obtain ⟨first, rest, rfl⟩ := List.exists_cons_of_ne_nil hne
  refine ⟨_, processDailySummary_of_kept now data st first rest hf, ?_, ⟨?_, ?_⟩, ⟨?_, ?_⟩, ?_⟩
  · simp only [foldl_add_eq_sum, zero_add, List.length_map]
  · exact foldl_max_mem _ _
  · exact foldl_max_ge _ _
  · exact foldl_min_mem _ _
  · exact foldl_min_le _ _
  · intro now2 data2 st2 hf2
    exact processDailySummary_of_kept now2 data2 st2 first rest hf2

/-- C4 on three readings, the second dated the day before: the summary is the mean 63/2, the
greatest 33 and the least 30 of the two readings dated today. -/
theorem processDailySummary_stats_witness :
    filterToday (isoDate 1793836810000)
        [stamped "Delhi" 30 1793836800, stamped "Mumbai" 50 1793750400,
         stamped "Chennai" 33 1793840000]
      = .ok [stamped "Delhi" 30 1793836800, stamped "Chennai" 33 1793840000]
    ∧ [stamped "Delhi" 30 1793836800, stamped "Chennai" 33 1793840000] ≠ []
    ∧ processDailySummary 1793836810000
        [stamped "Delhi" 30 1793836800, stamped "Mumbai" 50 1793750400,
         stamped "Chennai" 33 1793840000] initialState
      = .ok { initialState with
          dailySummary := some (DailySummary.mk (63 / 2) 33 30 (some "Clear")) }
    ∧ ∃ s : DailySummary,
      processDailySummary 1793836810000
        [stamped "Delhi" 30 1793836800, stamped "Mumbai" 50 1793750400,
         stamped "Chennai" 33 1793840000] initialState
        = .ok { initialState with dailySummary := some s }
      ∧ s.avgTemp
          = ([stamped "Delhi" 30 1793836800, stamped "Chennai" 33 1793840000].map
              (fun entry => entry.temp)).sum
            / (([stamped "Delhi" 30 1793836800, stamped "Chennai" 33 1793840000].length : ℕ) : ℚ)
      ∧ (s.maxTemp ∈ [stamped "Delhi" 30 1793836800, stamped "Chennai" 33 1793840000].map
            (fun entry => entry.temp)
          ∧ ∀ t ∈ [stamped "Delhi" 30 1793836800, stamped "Chennai" 33 1793840000].map
            (fun entry => entry.temp), t ≤ s.maxTemp)
      ∧ (s.minTemp ∈ [stamped "Delhi" 30 1793836800, stamped "Chennai" 33 1793840000].map
            (fun entry => entry.temp)
          ∧ ∀ t ∈ [stamped "Delhi" 30 1793836800, stamped "Chennai" 33 1793840000].map
            (fun entry => entry.temp), s.minTemp ≤ t)
      ∧ ∀ (now2 : Int) (data2 : List CityReading) (st2 : AppState),
          filterToday (isoDate now2) data2
            = .ok [stamped "Delhi" 30 1793836800, stamped "Chennai" 33 1793840000] →
          processDailySummary now2 data2 st2 = .ok { st2 with dailySummary := some s } :=
  have hf : filterToday (isoDate 1793836810000)
      [stamped "Delhi" 30 1793836800, stamped "Mumbai" 50 1793750400,
       stamped "Chennai" 33 1793840000]
      = .ok [stamped "Delhi" 30 1793836800, stamped "Chennai" 33 1793840000] := by rfl
  ⟨hf, by simp, by
      rw [processDailySummary_of_kept _ _ _ _ _ hf]
      have h1 : calculateDominantCondition
          [stamped "Delhi" 30 1793836800, stamped "Chennai" 33 1793840000] = some "Clear" := by
        decide
      rw [h1]
      norm_num [stamped],
    processDailySummary_stats 1793836810000 _ initialState _ hf (by simp)⟩

/-! ## The date filter of the daily summary -/

theorem digitChar_eq (a b : Int) (h : digitChar a = digitChar b) : a % 10 = b % 10 := by
  have key : ∀ x y : Fin 10, Char.ofNat (48 + x.val) = Char.ofNat (48 + y.val) → x = y := by
    decide
  have ha : (a % 10).toNat < 10 := by omega
  have hb : (b % 10).toNat < 10 := by omega
  have := key ⟨(a % 10).toNat, ha⟩ ⟨(b % 10).toNat, hb⟩ h
  simp only [Fin.mk.injEq] at this
  omega

theorem digitChar_ne_sign (a : Int) : digitChar a ≠ '-' ∧ digitChar a ≠ '+' := by
  have key : ∀ x : Fin 10, Char.ofNat (48 + x.val) ≠ '-' ∧ Char.ofNat (48 + x.val) ≠ '+' := by
    decide
  have ha : (a % 10).toNat < 10 := by omega
  exact key ⟨(a % 10).toNat, ha⟩

theorem civilFromDays_month_day (days : Int) :
    1 ≤ (civilFromDays days).2.1 ∧ (civilFromDays days).2.1 ≤ 12
      ∧ 1 ≤ (civilFromDays days).2.2 ∧ (civilFromDays days).2.2 ≤ 31 := by
  simp only [civilFromDays]
  split_ifs <;> omega

theorem isoDate_unfold (ms : Int) :
    isoDate ms
      = if 0 ≤ (civilFromDays (ms / 86400000)).1 ∧ (civilFromDays (ms / 86400000)).1 ≤ 9999
        then String.mk (pad4 (civilFromDays (ms / 86400000)).1
          ++ '-' :: pad2 (civilFromDays (ms / 86400000)).2.1
          ++ '-' :: pad2 (civilFromDays (ms / 86400000)).2.2)
        else String.mk ((if (civilFromDays (ms / 86400000)).1 < 0 then '-' else '+')
          :: pad6 (|(civilFromDays (ms / 86400000)).1|)
          ++ '-' :: pad2 (civilFromDays (ms / 86400000)).2.1) := by
  rfl

theorem ymd_eq_of_chars (y m d y1 m1 d1 : Int)
    (hy : 0 ≤ y ∧ y ≤ 9999) (hm : 1 ≤ m ∧ m ≤ 12) (hd : 1 ≤ d ∧ d ≤ 31)
    (hy1 : 0 ≤ y1 ∧ y1 ≤ 9999) (hm1 : 1 ≤ m1 ∧ m1 ≤ 12) (hd1 : 1 ≤ d1 ∧ d1 ≤ 31)
    (h : pad4 y ++ '-' :: pad2 m ++ '-' :: pad2 d = pad4 y1 ++ '-' :: pad2 m1 ++ '-' :: pad2 d1) :
    y = y1 ∧ m = m1 ∧ d = d1 := by
  simp only [pad4, pad2, List.cons_append, List.nil_append, List.cons.injEq, and_true,
    true_and] at h
  obtain ⟨h1, h2, h3, h4, h5, h6, h7, h8⟩ := h
  have e1 := digitChar_eq _ _ h1
  have e2 := digitChar_eq _ _ h2
  have e3 := digitChar_eq _ _ h3
  have e4 := digitChar_eq _ _ h4
  have e5 := digitChar_eq _ _ h5
  have e6 := digitChar_eq _ _ h6
  have e7 := digitChar_eq _ _ h7
  have e8 := digitChar_eq _ _ h8
  refine ⟨?_, ?_, ?_⟩ <;> omega

theorem isoDate_eq_iff (ms now : Int)
    (hnow : 0 ≤ (civilFromDays (now / 86400000)).1 ∧ (civilFromDays (now / 86400000)).1 ≤ 9999) :
    isoDate ms = isoDate now
      ↔ civilFromDays (ms / 86400000) = civilFromDays (now / 86400000) := by
  constructor
  · intro h
    rw [isoDate_unfold ms, isoDate_unfold now, if_pos hnow] at h
    by_cases hms : 0 ≤ (civilFromDays (ms / 86400000)).1
        ∧ (civilFromDays (ms / 86400000)).1 ≤ 9999
    · rw [if_pos hms] at h
      have hl := congrArg String.data h
      dsimp only at hl
      have b1 := civilFromDays_month_day (ms / 86400000)
      have b2 := civilFromDays_month_day (now / 86400000)
      obtain ⟨e1, e2, e3⟩ := ymd_eq_of_chars _ _ _ _ _ _ hms ⟨b1.1, b1.2.1⟩ ⟨b1.2.2.1, b1.2.2.2⟩
        hnow ⟨b2.1, b2.2.1⟩ ⟨b2.2.2.1, b2.2.2.2⟩ hl
      exact Prod.ext e1 (Prod.ext e2 e3)
    · rw [if_neg hms] at h
      have hl := congrArg String.data h
      dsimp only at hl
      simp only [pad4, pad2, List.cons_append, List.nil_append, List.cons.injEq] at hl
      have hs := digitChar_ne_sign ((civilFromDays (now / 86400000)).1 / 100 / 10)
      exfalso
      split_ifs at hl
      · exact hs.1 hl.1.symm
      · exact hs.2 hl.1.symm
  · intro h
    rw [isoDate_unfold ms, isoDate_unfold now, h]

theorem filterToday_eq_localToday (now : Int) (data : List CityReading)
    (hnow : 0 ≤ (localDate 0 (now / 1000)).1 ∧ (localDate 0 (now / 1000)).1 ≤ 9999)
    (hvalid : ∀ e ∈ data, ∃ t, e.timestamp = some t ∧ (t * 1000).natAbs ≤ 8640000000000000) :
    filterToday (isoDate now) data = .ok (localToday 0 now data) := by
  have hdiv : now / 1000 / 86400 = now / 86400000 := by omega
  have hnow2 : 0 ≤ (civilFromDays (now / 86400000)).1
      ∧ (civilFromDays (now / 86400000)).1 ≤ 9999 := by
    simpa only [localDate, add_zero, hdiv] using hnow
  induction data with
  | nil => rfl
  | cons e es ih =>
    obtain ⟨t, ht, hr⟩ := hvalid e (List.mem_cons_self _ _)
    have hes := ih (fun x hx => hvalid x (List.mem_cons_of_mem _ hx))
    have hdt : t * 1000 / 86400000 = t / 86400 := by omega
    have hiff : isoDate (t * 1000) = isoDate now
        ↔ localDate 0 t = localDate 0 (now / 1000) := by
      rw [isoDate_eq_iff _ _ hnow2]
      simp only [localDate, add_zero, hdiv, hdt]
    simp only [filterToday, entryIsoDate, ht, hr, if_true, hes, localToday, List.filter_cons]
    by_cases hd : isoDate (t * 1000) = isoDate now
    · simp [hd, hiff.1 hd]
    · have hd2 : ¬ localDate 0 t = localDate 0 (now / 1000) := fun h => hd (hiff.2 h)
      simp [hd, hd2]

/-- C6 (as amended): for every poll and every aggregation instant in the years 0 to 9999,
whatever the time zone of the host, the readings that `processDailySummary` aggregates are
exactly those whose UTC calendar date (the calendar date at offset 0) equals the UTC calendar
date of the aggregation instant, every reading carrying a valid timestamp. -/
theorem processDailySummary_filters_utc (now : Int) (data : List CityReading) (st : AppState)
    (hnow : 0 ≤ (localDate 0 (now / 1000)).1 ∧ (localDate 0 (now / 1000)).1 ≤ 9999)
    (hvalid : ∀ e ∈ data, ∃ t, e.timestamp = some t ∧ (t * 1000).natAbs ≤ 8640000000000000) :
    filterToday (isoDate now) data = .ok (localToday 0 now data)
    ∧ (localToday 0 now data = [] → processDailySummary now data st = .ok st)
    ∧ ∀ first rest, localToday 0 now data = first :: rest →
        processDailySummary now data st = .ok { st with dailySummary := some (DailySummary.mk
          (((first :: rest).map (fun entry => entry.temp)).foldl (fun a b => a + b) 0
            / (((first :: rest).map (fun entry => entry.temp)).length : ℚ))
          ((rest.map (fun entry => entry.temp)).foldl max first.temp)
          ((rest.map (fun entry => entry.temp)).foldl min first.temp)
          (calculateDominantCondition (first :: rest))) } := by
  have hf := filterToday_eq_localToday now data hnow hvalid
  refine ⟨hf, ?_, ?_⟩
  · intro hnil
    simp only [processDailySummary, hf, hnil]
  · intro first rest hcons
    exact processDailySummary_of_kept now data st first rest (hcons ▸ hf)

/-- C6 (as amended) at 2026-11-04 19:00 UTC, with one reading of 18:00 UTC on that day and one
of the day before. -/
theorem processDailySummary_filters_utc_witness :
    (0 ≤ (localDate 0 (1793818800000 / 1000)).1 ∧ (localDate 0 (1793818800000 / 1000)).1 ≤ 9999)
    ∧ (∀ e ∈ [stamped "Delhi" 30 1793815200, stamped "Mumbai" 28 1793700000],
        ∃ t, e.timestamp = some t ∧ (t * 1000).natAbs ≤ 8640000000000000)
    ∧ localToday 0 1793818800000
        [stamped "Delhi" 30 1793815200, stamped "Mumbai" 28 1793700000]
        = [stamped "Delhi" 30 1793815200]
    ∧ filterToday (isoDate 1793818800000)
        [stamped "Delhi" 30 1793815200, stamped "Mumbai" 28 1793700000]
        = .ok (localToday 0 1793818800000
            [stamped "Delhi" 30 1793815200, stamped "Mumbai" 28 1793700000]) :=
  have hnow : 0 ≤ (localDate 0 (1793818800000 / 1000)).1
      ∧ (localDate 0 (1793818800000 / 1000)).1 ≤ 9999 := by decide
  have hvalid : ∀ e ∈ [stamped "Delhi" 30 1793815200, stamped "Mumbai" 28 1793700000],
      ∃ t, e.timestamp = some t ∧ (t * 1000).natAbs ≤ 8640000000000000 := by
    intro e he
    simp only [List.mem_cons, List.mem_singleton, List.not_mem_nil, or_false] at he
    rcases he with rfl | rfl
    · exact ⟨1793815200, rfl, by decide⟩
    · exact ⟨1793700000, rfl, by decide⟩
  ⟨hnow, hvalid, by decide,
    (processDailySummary_filters_utc 1793818800000 _ initialState hnow hvalid).1⟩

/-- C6 (counterexample): on a host at UTC+05:30, at 2026-11-04 19:00 UTC (00:30 on 5 November,
local time), a reading of 18:00 UTC (23:30 on 4 November, local time) is aggregated, although
its local calendar date is not the local calendar date of the aggregation instant. -/
theorem processDailySummary_not_local_date :
    localDate 19800 1793815200 = (2026, 11, 4)
    ∧ localDate 19800 (1793818800000 / 1000) = (2026, 11, 5)
    ∧ localToday 19800 1793818800000 [stamped "Delhi" 30 1793815200] = []
    ∧ filterToday (isoDate 1793818800000) [stamped "Delhi" 30 1793815200]
        = .ok [stamped "Delhi" 30 1793815200]
    ∧ filterToday (isoDate 1793818800000) [stamped "Delhi" 30 1793815200]
        ≠ .ok (localToday 19800 1793818800000 [stamped "Delhi" 30 1793815200])
    ∧ (processDailySummary 1793818800000 [stamped "Delhi" 30 1793815200]
        initialState).toOption.map (fun st => st.dailySummary.isSome) = some true := by
  refine ⟨by decide, by decide, by decide, by rfl, ?_, by rfl⟩
  intro h
  have h2 : filterToday (isoDate 1793818800000) [stamped "Delhi" 30 1793815200]
      = .ok [stamped "Delhi" 30 1793815200] := by rfl
  rw [h2] at h
  have h3 : localToday 19800 1793818800000 [stamped "Delhi" 30 1793815200] = [] := by decide
  rw [h3] at h
  cases h

/-! ## The polling cycle -/

theorem promiseAll_rejected {α : Type} (rs : List (Response α)) (h : Response.rejected ∈ rs) :
    promiseAll rs = none := by
  induction rs with
  | nil => simp at h
  | cons r rs ih =>
    cases r with
    | rejected => rfl
    | fulfilled data =>
      have h2 : Response.rejected ∈ rs := by
        rcases List.mem_cons.1 h with h | h
        · cases h
        · exact h
      simp [promiseAll, ih h2]

theorem promiseAll_fulfilled {α : Type} (rs : List (Response α)) :
    ∀ xs, promiseAll rs = some xs → ∀ x, Response.fulfilled x ∈ rs → x ∈ xs := by
  induction rs with
  | nil => intro xs _ x hx; simp at hx
  | cons r rs ih =>
    intro xs h x hx
    cases r with
    | rejected => simp [promiseAll] at h
    | fulfilled data =>
      simp only [promiseAll] at h
      cases hrest : promiseAll rs with
      | none => simp [hrest] at h
      | some ys =>
        simp only [hrest, Option.some.injEq] at h
        subst h
        rcases List.mem_cons.1 hx with hx | hx
        · cases hx; exact List.mem_cons_self _ _
        · exact List.mem_cons_of_mem _ (ih ys hrest x hx)

theorem mapThrowing_error {α β : Type} (f : α → Except JSError β) (xs : List α) (x : α)
    (hx : x ∈ xs) (e : JSError) (hf : f x = .error e) :
    ∃ e1, mapThrowing f xs = .error e1 := by
  induction xs with
  | nil => simp at hx
  | cons a as ih =>
    simp only [mapThrowing]
    cases ha : f a with
    | error e2 => exact ⟨e2, rfl⟩
    | ok b =>
      rcases List.mem_cons.1 hx with rfl | hx
      · rw [hf] at ha; cases ha
      · obtain ⟨e1, he1⟩ := ih hx
        exact ⟨e1, by simp [he1]⟩

theorem toReading_error (data : WeatherPayload) (h : lacksContainer data) :
    toReading data = .error .typeError := by
  unfold toReading
  rcases h with h | h | h | h
  · simp [h]
  · simp [h]
  · rw [h]; split <;> rfl
  · rw [h]; split
    · rfl
    · rfl
    · split <;> rfl

/-- C7 (as amended): when a request of the poll is rejected, or a current-conditions payload
lacks its `weather` array, the first element of it, its `main` object or its `wind` object, or
the mapping of a forecast payload throws, `fetchWeatherData` calls no setter: the state after
the cycle, and with it the reading list, the forecast list, the daily summary, the alert list
and the BreachState, is the state before it. -/
theorem fetchWeatherData_all_or_nothing {κ : Type} [DecidableEq κ] (d : JSVal → κ)
    (consecutiveBreaches : BreachState) (now : Int)
    (wr : List (Response WeatherPayload)) (fr : List (Response JSVal)) (st : AppState)
    (h : Response.rejected ∈ wr ∨ Response.rejected ∈ fr
      ∨ (∃ w, Response.fulfilled w ∈ wr ∧ lacksContainer w)
      ∨ (∃ f e, Response.fulfilled f ∈ fr ∧ toCityForecast d f = .error e)) :
    fetchWeatherData d consecutiveBreaches now wr fr st = st := by
  cases hw : promiseAll wr with
  | none => simp only [fetchWeatherData, hw]
  | some ws =>
    cases hf : promiseAll fr with
    | none => simp only [fetchWeatherData, hw, hf]
    | some fs =>
      cases hr : mapThrowing toReading ws with
      | error e => simp only [fetchWeatherData, hw, hf, hr]
      | ok data =>
        cases hfd : mapThrowing (toCityForecast d) fs with
        | error e => simp only [fetchWeatherData, hw, hf, hr, hfd]
        | ok fdata =>
          exfalso
          rcases h with h | h | ⟨w, hmem, hlack⟩ | ⟨f, e, hmem, herr⟩
          · rw [promiseAll_rejected wr h] at hw; cases hw
          · rw [promiseAll_rejected fr h] at hf; cases hf
          · obtain ⟨e1, he1⟩ := mapThrowing_error toReading ws w
              (promiseAll_fulfilled wr ws hw w hmem) _ (toReading_error w hlack)
            rw [he1] at hr; cases hr
          · obtain ⟨e1, he1⟩ := mapThrowing_error (toCityForecast d) fs f
              (promiseAll_fulfilled fr fs hf f hmem) e herr
            rw [he1] at hfd; cases hfd

/-- C7 (as amended) on a poll whose forecast request is rejected, after a poll that went
through; the mapping of a forecast payload throws when its `city` or its `list` is absent. -/
theorem fetchWeatherData_all_or_nothing_witness :
    (Response.rejected ∈ [Response.fulfilled (payload "Delhi" 30 1793836800)]
      ∨ Response.rejected ∈ [(Response.rejected : Response JSVal)]
      ∨ (∃ w, Response.fulfilled w ∈ [Response.fulfilled (payload "Delhi" 30 1793836800)]
          ∧ lacksContainer w)
      ∨ (∃ f e, Response.fulfilled f ∈ [(Response.rejected : Response JSVal)]
          ∧ toCityForecast utcDayOfDt f = .error e))
    ∧ fetchWeatherData utcDayOfDt [] 1793836820000
        [Response.fulfilled (payload "Delhi" 30 1793836800)] [Response.rejected]
        (runApp utcDayOfDt [hotPoll])
      = runApp utcDayOfDt [hotPoll]
    ∧ toCityForecast utcDayOfDt (.obj [("list", .arr [])]) = .error .typeError
    ∧ toCityForecast utcDayOfDt (.obj [("city", .obj [("name", .str "Delhi")])])
        = .error .typeError :=
  have h : Response.rejected ∈ [Response.fulfilled (payload "Delhi" 30 1793836800)]
      ∨ Response.rejected ∈ [(Response.rejected : Response JSVal)]
      ∨ (∃ w, Response.fulfilled w ∈ [Response.fulfilled (payload "Delhi" 30 1793836800)]
          ∧ lacksContainer w)
      ∨ (∃ f e, Response.fulfilled f ∈ [(Response.rejected : Response JSVal)]
          ∧ toCityForecast utcDayOfDt f = .error e) :=
    Or.inr (Or.inl (List.mem_cons_self _ _))
  ⟨h, fetchWeatherData_all_or_nothing utcDayOfDt [] 1793836820000 _ _ _ h, by rfl, by rfl⟩

/-- C7 (counterexample): every request succeeds. With a reading payload that has no `dt`, the
cycle sets the reading list and the forecast list and then stops, leaving the summary, the
alerts and the BreachState as they were; with one that has no `humidity`, the cycle sets all
five. In both the state after the poll is not the state before it. -/
theorem fetchWeatherData_applies_malformed :
    (fetchWeatherData utcDayOfDt [] 1793836810000
        [Response.fulfilled (payloadNoDt "Delhi" 30)]
        [Response.fulfilled (forecastPayload "Delhi")] initialState).weatherData
      = [{ city := "Delhi", main := "Clear", temp := 30, feels_like := some 30,
           humidity := some 40, wind_speed := some 3, timestamp := none }]
    ∧ (fetchWeatherData utcDayOfDt [] 1793836810000
        [Response.fulfilled (payloadNoDt "Delhi" 30)]
        [Response.fulfilled (forecastPayload "Delhi")] initialState).forecastData.length = 1
    ∧ (fetchWeatherData utcDayOfDt [] 1793836810000
        [Response.fulfilled (payloadNoDt "Delhi" 30)]
        [Response.fulfilled (forecastPayload "Delhi")] initialState).dailySummary = none
    ∧ (fetchWeatherData utcDayOfDt [] 1793836810000
        [Response.fulfilled (payloadNoDt "Delhi" 30)]
        [Response.fulfilled (forecastPayload "Delhi")] initialState).consecutiveBreaches = []
    ∧ initialState.weatherData = []
    ∧ (fetchWeatherData utcDayOfDt [] 1793836810000
        [Response.fulfilled (payloadNoHumidity "Delhi" 30 1793836800)]
        [Response.fulfilled (forecastPayload "Delhi")] initialState).weatherData
      = [{ city := "Delhi", main := "Clear", temp := 30, feels_like := some 30,
           humidity := none, wind_speed := some 3, timestamp := some 1793836800 }]
    ∧ (fetchWeatherData utcDayOfDt [] 1793836810000
        [Response.fulfilled (payloadNoHumidity "Delhi" 30 1793836800)]
        [Response.fulfilled (forecastPayload "Delhi")] initialState).dailySummary.map
          (fun s => (s.maxTemp, s.minTemp, s.dominantCondition))
      = some (30, 30, some "Clear")
    ∧ (fetchWeatherData utcDayOfDt [] 1793836810000
        [Response.fulfilled (payloadNoHumidity "Delhi" 30 1793836800)]
        [Response.fulfilled (forecastPayload "Delhi")] initialState).consecutiveBreaches
      = [("Delhi", 1)] := by
  exact ⟨by rfl, by rfl, by rfl, by rfl, by rfl, by rfl, by rfl, by rfl⟩

end WeatherMonitor
